import Mathlib

/-!
Verification development for the GnamiAI gateway core: the agent action
protocol (`src/core/actions.ts`), the turn state machine (`gateway/server.ts`
`handleInbound` and helpers), the persisted store (`src/core/store.ts`), the
persona bootstrap (`parsePersonaInput` and friends) and the browser
remote-debug session (`CdpSession`).  Texts are modelled as `List Char`; the
JavaScript regular expressions used by the code are compiled by hand into
executable matchers with explicit backtracking where it matters.
-/

set_option maxRecDepth 20000

namespace Gnami

/-- Texts (JavaScript strings) are lists of characters. -/
abbrev Str := List Char

/-- Coerce a Lean string literal to the `List Char` model. -/
def str (s : String) : Str := s.data

/-- JavaScript whitespace (`\s`, `String.prototype.trim`), ASCII part plus NBSP. -/
def isWsChar (c : Char) : Bool :=
  c = ' ' || c = '\t' || c = '\n' || c = '\r' || c = '\x0b' || c = '\x0c' || c = '\u00A0'

/-- `String.prototype.trim`. -/
def trimStr (s : Str) : Str :=
  ((s.dropWhile isWsChar).reverse.dropWhile isWsChar).reverse

/-- `String.prototype.trimEnd`. -/
def trimEndStr (s : Str) : Str :=
  (s.reverse.dropWhile isWsChar).reverse

/-- JavaScript truthiness of a string: `""` is falsy; `a || b`. -/
def orEmpty (a b : Str) : Str := if a.isEmpty then b else a

/-- JavaScript truthiness of an optional string field (`undefined` and `""` are falsy). -/
def optFalsy : Option Str → Bool
  | none => true
  | some v => v.isEmpty

/-- `String.prototype.toLowerCase` (ASCII, which is all the code relies on). -/
def lowerStr (s : Str) : Str := s.map Char.toLower

/-- A word character for the regex `\b` / `\w`: `[A-Za-z0-9_]`. -/
def isWordChar (c : Char) : Bool :=
  ('a' ≤ c && c ≤ 'z') || ('A' ≤ c && c ≤ 'Z') || ('0' ≤ c && c ≤ '9') || c = '_'

/-- ASCII letter or digit, case-insensitive (`[a-z0-9]` under the `i` flag). -/
def isAlnum (c : Char) : Bool :=
  ('a' ≤ c && c ≤ 'z') || ('A' ≤ c && c ≤ 'Z') || ('0' ≤ c && c ≤ '9')

/-- The character class `[a-z0-9 _-]` under the `i` flag. -/
def isNameClassChar (c : Char) : Bool :=
  isAlnum c || c = ' ' || c = '_' || c = '-'

/-- Case-insensitively consume a literal `pat` (given lowercase) at the head of
`s`, returning the remainder. -/
def matchLitCI : Str → Str → Option Str
  | [], s => some s
  | _ :: _, [] => none
  | p :: ps, c :: cs => if c.toLower = p then matchLitCI ps cs else none

/-- Split `s` at the first occurrence of `pat`: `some (pre, suf)` with
`s = pre ++ suf` and `pat` a prefix of `suf`, scanning left to right. -/
def splitFirst (pat : Str) : Str → Option (Str × Str)
  | [] => if pat.isPrefixOf ([] : Str) then some ([], []) else none
  | c :: rest =>
    if pat.isPrefixOf (c :: rest) then some ([], c :: rest)
    else
      match splitFirst pat rest with
      | some (pre, suf) => some (c :: pre, suf)
      | none => none

/-- Replace the first occurrence of `pat` in `s` with nothing
(`String.prototype.replace` with a plain-string pattern and `""`). -/
def removeFirst (pat : Str) (s : Str) : Str :=
  match splitFirst pat s with
  | some (pre, suf) => pre ++ suf.drop pat.length
  | none => s

/-- Split a text on a single delimiter character (`String.prototype.split`). -/
def splitOnChar (delim : Char) : Str → List Str
  | [] => [[]]
  | c :: rest =>
    if c = delim then [] :: splitOnChar delim rest
    else
      match splitOnChar delim rest with
      | [] => [[c]]
      | h :: t => (c :: h) :: t

/-- A text contains a character. -/
def containsChar (s : Str) (c : Char) : Bool := s.any (fun d => d = c)

/-! ## JSON values and `JSON.parse`

`safeJsonParse` in `src/core/actions.ts` wraps `JSON.parse`; the parser below
implements the standard JSON grammar.  Numbers keep their source lexeme (the
action code only tests `typeof x === "number"` and passes values through). -/

inductive Json where
  | null
  | bool (b : Bool)
  | num (lexeme : Str)
  | jstr (s : Str)
  | arr (items : List Json)
  | obj (fields : List (Str × Json))

/-- Property lookup on a parsed JSON object: later duplicate keys overwrite
earlier ones, as in JavaScript object construction. -/
def jget (fields : List (Str × Json)) (key : Str) : Option Json :=
  (fields.reverse.find? (fun f => f.1 = key)).map Prod.snd

/-- JSON structural whitespace (space, tab, newline, carriage return). -/
def isJsonWs (c : Char) : Bool :=
  c = ' ' || c = '\t' || c = '\n' || c = '\r'

def skipJsonWs (s : Str) : Str := s.dropWhile isJsonWs

def isDigit (c : Char) : Bool := '0' ≤ c && c ≤ '9'

def isHexDigit (c : Char) : Bool :=
  isDigit c || ('a' ≤ c && c ≤ 'f') || ('A' ≤ c && c ≤ 'F')

def hexVal (c : Char) : Nat :=
  if isDigit c then c.toNat - '0'.toNat
  else if 'a' ≤ c && c ≤ 'f' then c.toNat - 'a'.toNat + 10
  else if 'A' ≤ c && c ≤ 'F' then c.toNat - 'A'.toNat + 10
  else 0

/-- Parse the body of a JSON string literal (after the opening quote),
handling the escape sequences of the JSON grammar and rejecting raw control
characters. -/
def parseJsonString : Str → Option (Str × Str)
  | [] => none
  | '"' :: rest => some ([], rest)
  | '\\' :: esc =>
    match esc with
    | 'u' :: h1 :: h2 :: h3 :: h4 :: rest =>
      if isHexDigit h1 && isHexDigit h2 && isHexDigit h3 && isHexDigit h4 then
        match parseJsonString rest with
        | some (tail, rest') =>
          some (Char.ofNat (((hexVal h1 * 16 + hexVal h2) * 16 + hexVal h3) * 16 + hexVal h4)
                  :: tail, rest')
        | none => none
      else none
    | c :: rest =>
      let mapped : Option Char :=
        if c = '"' then some '"'
        else if c = '\\' then some '\\'
        else if c = '/' then some '/'
        else if c = 'b' then some '\x08'
        else if c = 'f' then some '\x0c'
        else if c = 'n' then some '\n'
        else if c = 'r' then some '\r'
        else if c = 't' then some '\t'
        else none
      match mapped with
      | none => none
      | some m =>
        match parseJsonString rest with
        | some (tail, rest') => some (m :: tail, rest')
        | none => none
    | [] => none
  | c :: rest =>
    if c.toNat < 32 then none
    else
      match parseJsonString rest with
      | some (tail, rest') => some (c :: tail, rest')
      | none => none

/-- Parse a JSON number lexeme: `-? (0 | [1-9][0-9]*) (. [0-9]+)? ([eE][+-]?[0-9]+)?`. -/
def parseJsonNumber (s : Str) : Option (Str × Str) :=
  let (sign, s1) :=
    match s with
    | '-' :: rest => (['-'], rest)
    | _ => (([] : Str), s)
  match s1 with
  | [] => none
  | c :: _ =>
    if ¬ isDigit c then none
    else
      let intPart : Str :=
        if c = '0' then ['0'] else s1.takeWhile isDigit
      let s2 := s1.drop intPart.length
      let (fracPart, s3) :=
        match s2 with
        | '.' :: d :: rest =>
          if isDigit d then
            let ds := (d :: rest).takeWhile isDigit
            ('.' :: ds, (d :: rest).drop ds.length)
          else (([] : Str), s2)
        | _ => (([] : Str), s2)
      let (expPart, s4) :=
        match s3 with
        | e :: rest =>
          if e = 'e' || e = 'E' then
            let (esign, rest') :=
              match rest with
              | '+' :: r => (['+'], r)
              | '-' :: r => (['-'], r)
              | _ => (([] : Str), rest)
            match rest' with
            | d :: _ =>
              if isDigit d then
                let ds := rest'.takeWhile isDigit
                (e :: (esign ++ ds), rest'.drop ds.length)
              else (([] : Str), s3)
            | [] => (([] : Str), s3)
          else (([] : Str), s3)
        | [] => (([] : Str), s3)
      some (sign ++ intPart ++ fracPart ++ expPart, s4)

mutual

/-- Parse one JSON value (with leading whitespace), fuel-bounded. -/
def parseJsonValue : Nat → Str → Option (Json × Str)
  | 0, _ => none
  | fuel + 1, s =>
    match skipJsonWs s with
    | 'n' :: 'u' :: 'l' :: 'l' :: rest => some (.null, rest)
    | 't' :: 'r' :: 'u' :: 'e' :: rest => some (.bool true, rest)
    | 'f' :: 'a' :: 'l' :: 's' :: 'e' :: rest => some (.bool false, rest)
    | '"' :: rest =>
      match parseJsonString rest with
      | some (v, rest') => some (.jstr v, rest')
      | none => none
    | '[' :: rest => parseJsonArrayItems fuel rest
    | '\x7b' :: rest => parseJsonObjectFields fuel rest
    | other =>
      match parseJsonNumber other with
      | some (lex, rest') => some (.num lex, rest')
      | none => none

/-- Parse the items of a JSON array after `[`. -/
def parseJsonArrayItems : Nat → Str → Option (Json × Str)
  | 0, _ => none
  | fuel + 1, s =>
    match skipJsonWs s with
    | ']' :: rest => some (.arr [], rest)
    | _ =>
      match parseJsonValue fuel s with
      | none => none
      | some (v, rest) =>
        match skipJsonWs rest with
        | ']' :: rest' => some (.arr [v], rest')
        | ',' :: rest' =>
          match parseJsonArrayItems fuel rest' with
          | some (.arr vs, rest'') => some (.arr (v :: vs), rest'')
          | _ => none
        | _ => none

/-- Parse the members of a JSON object after the opening brace. -/
def parseJsonObjectFields : Nat → Str → Option (Json × Str)
  | 0, _ => none
  | fuel + 1, s =>
    match skipJsonWs s with
    | '\x7d' :: rest => some (.obj [], rest)
    | '"' :: rest =>
      match parseJsonString rest with
      | none => none
      | some (key, rest1) =>
        match skipJsonWs rest1 with
        | ':' :: rest2 =>
          match parseJsonValue fuel rest2 with
          | none => none
          | some (v, rest3) =>
            match skipJsonWs rest3 with
            | '\x7d' :: rest4 => some (.obj [(key, v)], rest4)
            | ',' :: rest4 =>
              match parseJsonObjectFields fuel rest4 with
              | some (.obj fs, rest5) => some (.obj ((key, v) :: fs), rest5)
              | _ => none
            | _ => none
        | _ => none
    | _ => none

end

/-- `safeJsonParse` from `src/core/actions.ts`: `JSON.parse` returning `none`
instead of throwing; the whole text (up to trailing whitespace) must parse. -/
def safeJsonParse (s : Str) : Option Json :=
  match parseJsonValue (s.length + 1) s with
  | some (v, rest) => if (skipJsonWs rest).isEmpty then some v else none
  | none => none

/-! ## Agent action protocol (`src/core/actions.ts`) -/

/-- The fenced action marker ` ```gnami-action `. -/
def actionMarker : Str := str "```gnami-action"

/-- A closing code fence. -/
def fenceStr : Str := str "```"

/-- One match of the action-block regular expression
`/```gnami-action\s*([\s\S]*?)```/`: the text before the marker, the (untrimmed)
body between the marker and the first closing fence after it, and the rest of
the text after that fence.  `none` when no complete block remains. -/
def nextBlock (s : Str) : Option (Str × Str × Str) :=
  match splitFirst actionMarker s with
  | none => none
  | some (pre, suf) =>
    match splitFirst fenceStr (suf.drop actionMarker.length) with
    | none => none
    | some (body, suf2) => some (pre, body, suf2.drop fenceStr.length)

/-- Agent actions, the tagged union from `src/core/actions.ts`.  `timeoutMs`
carries the JSON number lexeme when present. -/
inductive AgentAction where
  | shell (command : Str) (timeoutMs : Option Str)
  | install_skill (name : Str) (content : Str)
  | integration (app : Str) (action : Str) (params : Option (List (Str × Json)))

/-- The `type` discriminator string of an action. -/
def AgentAction.typeName : AgentAction → Str
  | .shell _ _ => str "shell"
  | .install_skill _ _ => str "install_skill"
  | .integration _ _ _ => str "integration"

/-- The loop body of `parseAgentActions` for one fenced block: trim the body,
`safeJsonParse` it, skip non-objects (and `null`, which is falsy), then accept
exactly the three known variants with correctly-typed required fields. -/
def blockAction (body : Str) : Option AgentAction :=
  match safeJsonParse (trimStr body) with
  | some (.obj fields) =>
    match jget fields (str "type") with
    | some (.jstr t) =>
      if t = str "shell" then
        match jget fields (str "command") with
        | some (.jstr cmd) =>
          some (.shell cmd
            (match jget fields (str "timeoutMs") with
             | some (.num n) => some n
             | _ => none))
        | _ => none
      else if t = str "install_skill" then
        match jget fields (str "name"), jget fields (str "content") with
        | some (.jstr n), some (.jstr c) => some (.install_skill n c)
        | _, _ => none
      else if t = str "integration" then
        match jget fields (str "app"), jget fields (str "action") with
        | some (.jstr app), some (.jstr act) =>
          some (.integration app act
            (match jget fields (str "params") with
             | some (.obj ps) => some ps
             | _ => none))
        | _, _ => none
      else none
    | _ => none
  | _ => none

/-- The scanning loop of `parseAgentActions`, fuel-bounded (the fuel used by
`parseAgentActions` is always sufficient, see `parseLoop_congr`). -/
def parseLoop : Nat → Str → List AgentAction
  | 0, _ => []
  | fuel + 1, s =>
    match nextBlock s with
    | none => []
    | some (_, body, rest) =>
      match blockAction body with
      | some a => a :: parseLoop fuel rest
      | none => parseLoop fuel rest

/-- `parseAgentActions`: extract every well-formed action from the fenced
`gnami-action` blocks of a text, in source order, skipping malformed blocks. -/
def parseAgentActions (s : Str) : List AgentAction := parseLoop s.length s

/-- The raw bodies of all fenced `gnami-action` blocks of a text, in source
order (the segments the extraction regex visits). -/
def blocksLoop : Nat → Str → List Str
  | 0, _ => []
  | fuel + 1, s =>
    match nextBlock s with
    | none => []
    | some (_, body, rest) => body :: blocksLoop fuel rest

/-- All fenced block bodies of a text, in source order. -/
def extractBlocks (s : Str) : List Str := blocksLoop s.length s

/-- The replacement loop of `stripAgentActions`
(`text.replace(/```gnami-action[\s\S]*?```/g, "")`). -/
def stripLoop : Nat → Str → Str
  | 0, s => s
  | fuel + 1, s =>
    match nextBlock s with
    | none => s
    | some (pre, _, rest) => pre ++ stripLoop fuel rest

/-- `stripAgentActions`: remove every fenced `gnami-action` block and trim. -/
def stripAgentActions (s : Str) : Str := trimStr (stripLoop s.length s)

/-! ### Action execution

`executeAgentActions` awaits real side effects (child processes, file writes,
HTTP); those are modelled as oracle functions that either return the value the
`await` would produce or the message of the error it would throw. -/

/-- Side-effect oracles for `executeAgentActions`. -/
structure ExecEnv where
  /-- `execShell(command, timeoutMs)`: resolved output, or rejection message. -/
  execShell : Str → Str → Except Str Str
  /-- `installSkill(name, content)`: skill id, or thrown error message. -/
  installSk : Str → Str → Except Str Str
  /-- `options.integrations?.exec({app, action, params})`, absent when no
  integration runtime was supplied. -/
  integrations : Option (Str → Str → Option (List (Str × Json)) → Except Str Json)

/-- Escape and quote a string (`JSON.stringify` of a string value). -/
def jsonQuote (s : Str) : Str :=
  '"' :: (s.flatMap (fun c =>
      if c = '"' then ['\\', '"']
      else if c = '\\' then ['\\', '\\']
      else if c = '\n' then ['\\', 'n']
      else if c = '\r' then ['\\', 'r']
      else if c = '\t' then ['\\', 't']
      else [c])) ++ ['"']

mutual

/-- Serialize a JSON value (`JSON.stringify` of an integration result). -/
def jsonStringify : Json → Str
  | .null => str "null"
  | .bool true => str "true"
  | .bool false => str "false"
  | .num lex => lex
  | .jstr s => jsonQuote s
  | .arr items => '[' :: jsonStringifyItems items ++ [']']
  | .obj fields => '\x7b' :: jsonStringifyFields fields ++ ['\x7d']

/-- Comma-separated serialization of array items. -/
def jsonStringifyItems : List Json → Str
  | [] => []
  | [x] => jsonStringify x
  | x :: y :: rest => jsonStringify x ++ ',' :: jsonStringifyItems (y :: rest)

/-- Comma-separated serialization of object members. -/
def jsonStringifyFields : List (Str × Json) → Str
  | [] => []
  | [(k, v)] => jsonQuote k ++ ':' :: jsonStringify v
  | (k, v) :: f :: rest =>
    (jsonQuote k ++ ':' :: jsonStringify v) ++ ',' :: jsonStringifyFields (f :: rest)

end

/-- The `try` block of one loop iteration of `executeAgentActions`: the output
string the iteration computes, or the message of the error it throws. -/
def execRaw (env : ExecEnv) : AgentAction → Except Str Str
  | .shell cmd tmo => env.execShell cmd (tmo.getD (str "60000"))
  | .install_skill name content =>
    (env.installSk name content).map (fun id => str "Installed skill: " ++ id)
  | .integration app act params =>
    match env.integrations with
    | none => .error (str "Integration runtime is not available.")
    | some ex => (ex app act params).map jsonStringify

/-- An entry of the result list of `executeAgentActions`. -/
structure ActionResult where
  action : AgentAction
  ok : Bool
  output : Str

/-- One loop iteration of `executeAgentActions` including its `catch`: a
thrown error becomes that action's `ok = false` result with the error message
as output. -/
def execOne (env : ExecEnv) (a : AgentAction) : ActionResult :=
  match execRaw env a with
  | .ok out => ⟨a, true, out⟩
  | .error e => ⟨a, false, e⟩

/-- `executeAgentActions`: run the actions strictly in order, each through the
per-action `try`/`catch`, accumulating one result per action. -/
def executeAgentActions (env : ExecEnv) (actions : List AgentAction) : List ActionResult :=
  actions.map (execOne env)

/-! ## Persisted store (`src/core/store.ts`)

The SQLite tables are modelled as lists in insertion order; `Store.now()` and
the random pairing code are supplied by the turn environment. -/

inductive Channel where
  | webchat
  | telegram
deriving DecidableEq

/-- The channel name string (template interpolation of a `ChannelName`). -/
def Channel.name : Channel → Str
  | .webchat => str "webchat"
  | .telegram => str "telegram"

inductive Direction where
  | inbound
  | outbound
deriving DecidableEq

structure PairingRecord where
  channel : Channel
  senderId : Str
  approved : Bool
  code : Str
  createdAt : Str
deriving DecidableEq

structure SessionRecord where
  id : Nat
  channel : Channel
  senderId : Str
  createdAt : Str
  updatedAt : Str
deriving DecidableEq

structure MessageRecord where
  id : Nat
  sessionId : Nat
  direction : Direction
  content : Str
  createdAt : Str
deriving DecidableEq

structure MemoryEventRecord where
  sessionKey : Str
  status : Str
  detail : Option Str
  createdAt : Str
deriving DecidableEq

structure StoreState where
  pairings : List PairingRecord
  sessions : List SessionRecord
  messages : List MessageRecord
  memoryEvents : List MemoryEventRecord
  nextSessionId : Nat
  nextMessageId : Nat
deriving DecidableEq

/-- `Store.upsertPairing`: return the existing row's `(approved, code)` for
`(channel, senderId)`, else insert a new unapproved row with a fresh code. -/
def upsertPairing (freshCode now : Str) (st : StoreState) (channel : Channel)
    (senderId : Str) : StoreState × Bool × Str :=
  match st.pairings.find? (fun p => p.channel = channel ∧ p.senderId = senderId) with
  | some p => (st, p.approved, p.code)
  | none =>
    ({ st with pairings := st.pairings ++ [⟨channel, senderId, false, freshCode, now⟩] },
     false, freshCode)

/-- `Store.approvePairing`: `UPDATE pairings SET approved = 1 WHERE channel = ?
AND code = ?`, returning whether any row matched (`changes > 0`). -/
def approvePairing (st : StoreState) (channel : Channel) (code : Str) :
    StoreState × Bool :=
  ({ st with pairings := st.pairings.map (fun p =>
      if p.channel = channel ∧ p.code = code then { p with approved := true } else p) },
   st.pairings.any (fun p => p.channel = channel ∧ p.code = code))

/-- `Store.getOrCreateSession`: `INSERT OR IGNORE` a fresh session, else
refresh `updated_at` of the existing `(channel, sender_id)` row; returns the
session id. -/
def getOrCreateSession (now : Str) (st : StoreState) (channel : Channel)
    (senderId : Str) : StoreState × Nat :=
  if st.sessions.any (fun s => s.channel = channel ∧ s.senderId = senderId) then
    ({ st with sessions := st.sessions.map (fun s =>
        if s.channel = channel ∧ s.senderId = senderId then { s with updatedAt := now } else s) },
     ((st.sessions.find? (fun s => s.channel = channel ∧ s.senderId = senderId)).map
        SessionRecord.id).getD 0)
  else
    ({ st with
        sessions := st.sessions ++ [⟨st.nextSessionId, channel, senderId, now, now⟩],
        nextSessionId := st.nextSessionId + 1 },
     st.nextSessionId)

/-- `Store.addMessage`. -/
def addMessage (now : Str) (st : StoreState) (sessionId : Nat) (direction : Direction)
    (content : Str) : StoreState × Nat :=
  ({ st with
      messages := st.messages ++ [⟨st.nextMessageId, sessionId, direction, content, now⟩],
      nextMessageId := st.nextMessageId + 1 },
   st.nextMessageId)

/-- `Store.getRecentMessages`: the session's messages ordered by id descending,
limited, then reversed back into ascending order. -/
def getRecentMessages (st : StoreState) (sessionId : Nat) (limit : Nat) :
    List MessageRecord :=
  (((st.messages.filter (fun m => m.sessionId = sessionId)).reverse).take limit).reverse

/-- `Store.addMemoryEvent`. -/
def addMemoryEvent (now : Str) (st : StoreState) (sessionKey status : Str)
    (detail : Option Str) : StoreState :=
  { st with memoryEvents := st.memoryEvents ++ [⟨sessionKey, status, detail, now⟩] }

/-! ## Remote-debug session (`CdpSession` in the browser adapter)

The session is modelled as a state machine over the pending-call map; the
15-second timer and the socket are events acting on that state.  `pending`
keeps, for each outstanding id, the method name the timeout closure captured. -/

/-- The CDP per-call timeout, milliseconds (`setTimeout(..., 15000)`). -/
def cdpTimeoutMs : Nat := 15000

structure PendingEntry where
  id : Nat
  method : Str
deriving DecidableEq

structure CdpState where
  nextId : Nat
  pending : List PendingEntry
deriving DecidableEq

/-- Outcome delivered to a pending call's promise. -/
inductive CdpOutcome where
  | resolved (result : Json)
  | rejected (message : Str)

/-- `CdpSession.command` up to its `await`: allocate the next id and register
the pending call (the frame `{id, method, params}` is then sent). -/
def cdpCommandStart (st : CdpState) (method : Str) : CdpState × Nat :=
  let id := st.nextId + 1
  ({ nextId := id, pending := st.pending ++ [⟨id, method⟩] }, id)

/-- The timeout closure of `CdpSession.command`: if the id is still pending,
remove it and reject with a timeout error naming the method; otherwise do
nothing. -/
def cdpOnTimeout (st : CdpState) (id : Nat) (method : Str) : CdpState × Option CdpOutcome :=
  if st.pending.any (fun p => p.id = id) then
    ({ st with pending := st.pending.filter (fun p => p.id ≠ id) },
     some (.rejected (str "CDP command timed out: " ++ method)))
  else (st, none)

/-- An inbound socket frame as the message handler reads it. -/
structure CdpFrame where
  /-- The `id` field; `none` when absent. -/
  id : Option Nat
  /-- The `error` field with its optional `message`. -/
  error : Option (Option Str)
  result : Json

/-- The `message` handler installed by `CdpSession.connect`: a frame without a
(truthy) id is ignored, a frame whose id has no pending entry is ignored, and
otherwise the pending call is removed and resolved or rejected. -/
def cdpOnMessage (st : CdpState) (f : CdpFrame) : CdpState × Option (Nat × CdpOutcome) :=
  match f.id with
  | none => (st, none)
  | some i =>
    if i = 0 then (st, none)
    else
      match st.pending.find? (fun p => p.id = i) with
      | none => (st, none)
      | some _ =>
        let st' := { st with pending := st.pending.filter (fun p => p.id ≠ i) }
        match f.error with
        | some errMsg => (st', some (i, .rejected (errMsg.getD (str "CDP command failed."))))
        | none => (st', some (i, .resolved f.result))

/-! ## Regex machinery for the persona bootstrap

Each JavaScript regular expression used by `gateway/server.ts` is compiled by
hand into an executable matcher.  Greedy quantifiers followed by character
classes that overlap whitespace need explicit backtracking, implemented by
`descend` (try split points from the greedy maximum downwards, first success
wins, exactly as the JS engine does). -/

/-- Try `f k, f (k-1), ..., f minK` in order, first success wins. -/
def descend (f : Nat → Option α) (minK : Nat) : Nat → Option α
  | 0 => if 0 < minK then none else f 0
  | k + 1 =>
    if k + 1 < minK then none
    else
      match f (k + 1) with
      | some r => some r
      | none => descend f minK k

/-- Leftmost match: try the position matcher at every suffix, left to right. -/
def scanFirst (f : Str → Option α) : Str → Option α
  | [] => f []
  | c :: rest =>
    match f (c :: rest) with
    | some r => some r
    | none => scanFirst f rest

/-- Leftmost match at a position with a word boundary before it (`\b` ahead of
a pattern starting with a word character). -/
def scanFirstAfterBoundary (f : Str → Option α) : Option Char → Str → Option α
  | _, [] => none
  | prev, c :: rest =>
    let boundaryOk := match prev with
      | none => true
      | some p => !isWordChar p
    match (if boundaryOk then f (c :: rest) else none) with
    | some r => some r
    | none => scanFirstAfterBoundary f (some c) rest

/-- `\b` after a pattern ending in a word character. -/
def boundaryAfter : Str → Bool
  | [] => true
  | c :: _ => !isWordChar c

/-- `\s+`: consume at least one whitespace character (greedily). -/
def wsPlus (s : Str) : Option Str :=
  let n := (s.takeWhile isWsChar).length
  if n = 0 then none else some (s.drop n)

/-- `\s*`: consume whitespace greedily. -/
def wsStar (s : Str) : Str := s.dropWhile isWsChar

/-- `\s{minWs,}([^…]+)`: greedy whitespace, then a nonempty negated-class run,
backtracking the whitespace into the run where the class admits whitespace.
Returns the capture and the rest of the text after it. -/
def capExcl (isExcl : Char → Bool) (minWs : Nat) (tail : Str) : Option (Str × Str) :=
  let w := (tail.takeWhile isWsChar).length
  if w < minWs then none
  else
    descend (fun k =>
      let run := (tail.drop k).takeWhile (fun c => !isExcl c)
      if run.isEmpty then none else some (run, (tail.drop k).drop run.length)) minWs w

/-- `\s{minWs,}([cls]{minLen,maxLen})`: greedy whitespace then a bounded
positive-class capture, with the same backtracking. -/
def capCls (allowed : Char → Bool) (minLen maxLen minWs : Nat) (tail : Str) : Option Str :=
  let w := (tail.takeWhile isWsChar).length
  if w < minWs then none
  else
    descend (fun k =>
      let run := ((tail.drop k).takeWhile allowed).take maxLen
      if run.length < minLen then none else some run) minWs w

/-- Literal words joined by `\s+`, case-insensitively. -/
def matchWordsCI : List Str → Str → Option Str
  | [], s => some s
  | [w], s => matchLitCI w s
  | w :: w2 :: rest, s =>
    (matchLitCI w s).bind (fun t => (wsPlus t).bind (matchWordsCI (w2 :: rest)))

/-- `a'?b`: a literal, an optional apostrophe, a literal. -/
def matchAposCI (a b : Str) (s : Str) : Option Str :=
  (matchLitCI a s).bind (fun t =>
    match t with
    | c :: t' => if c = Char.ofNat 39 then matchLitCI b t' else matchLitCI b t
    | [] => matchLitCI b t)

/-- `\s*(?:opt₁|opt₂|…)?` followed by a continuation, with full backtracking
over the whitespace split, the ordered optional literals, and the empty
alternative. -/
def wsOptThen (opts : List Str) (cont : Str → Option α) (tail : Str) : Option α :=
  let w := (tail.takeWhile isWsChar).length
  descend (fun k => tryOpts opts (tail.drop k)) 0 w
where
  tryOpts : List Str → Str → Option α
    | [], t => cont t
    | o :: rest, t =>
      match matchLitCI o t with
      | some t' =>
        match cont t' with
        | some r => some r
        | none => tryOpts rest t
      | none => tryOpts rest t

/-- Substring test (`String.prototype.includes`). -/
def hasSub (pat s : Str) : Bool := (splitFirst pat s).isSome

/-- The class `[\w _-]` kept by the `replace(/[^\w _-]/g, "")` scrubs. -/
def keepWordClass (c : Char) : Bool := isWordChar c || c = ' ' || c = '-'

/-! ## Persona bootstrap (`gateway/server.ts`) -/

structure PersonaFields where
  assistantName : Option Str := none
  userName : Option Str := none
  language : Option Str := none
deriving DecidableEq

structure RequiredPersona where
  assistantName : Str
  userName : Str
  language : Str
deriving DecidableEq

/-- Delimiters of the key-value pair regex (`[;,\n]`). -/
def isPairOpener (c : Char) : Bool := c = ';' || c = ',' || c = '\n'

/-- Value stoppers of the pair regex (`[^;,\n]+`). -/
def isPairStop (c : Char) : Bool := c = ';' || c = ',' || c = '\n'

/-- The ordered key alternatives of the pair regex. -/
def pairKeys : List Str :=
  [str "assistant", str "assistant_name", str "bot", str "bot_name",
   str "language", str "lang", str "user", str "user_name"]

/-- Try the pair-regex body `\s*(key)\s*[:=]\s*([^;,\n]+)` at a position just
after an opener, with the ordered key alternation backtracking into the
continuation.  Returns the canonical (lowercase) key, the raw capture, and the
text after the match. -/
def tryPairBody (t : Str) : Option (Str × Str × Str) :=
  go pairKeys (wsStar t)
where
  go : List Str → Str → Option (Str × Str × Str)
    | [], _ => none
    | k :: rest, t1 =>
      match matchLitCI k t1 with
      | some t2 =>
        (match wsStar t2 with
         | c :: t3 =>
           if c = ':' || c = '=' then
             match capExcl isPairStop 0 t3 with
             | some (v, after) => some (k, v, after)
             | none => go rest t1
           else go rest t1
         | [] => go rest t1)
      | none => go rest t1

/-- One scanning step of the pair regex at a given position: the `^` opener
alternative (only at the very start), else a `[;,\n]` opener character. -/
def tryPairAt (atStart : Bool) (s : Str) : Option (Str × Str × Str) :=
  match (if atStart then tryPairBody s else none) with
  | some r => some r
  | none =>
    match s with
    | c :: t => if isPairOpener c then tryPairBody t else none
    | [] => none

/-- Apply one pair-regex match to the accumulated fields:
lowercased key dispatch with `includes`, skipping whitespace-only values. -/
def applyPairMatch (acc : PersonaFields) (key rawValue : Str) : PersonaFields :=
  let value := trimStr rawValue
  if value.isEmpty then acc
  else if hasSub (str "assistant") key || hasSub (str "bot") key then
    { acc with assistantName := some value }
  else if hasSub (str "lang") key then { acc with language := some value }
  else if hasSub (str "user") key then { acc with userName := some value }
  else acc

/-- The `exec` loop of the pair regex (`/gi`): scan forward, apply each match,
resume after the match's end. -/
def pairScan : Nat → Bool → Str → PersonaFields → PersonaFields
  | 0, _, _, acc => acc
  | fuel + 1, atStart, s, acc =>
    match tryPairAt atStart s with
    | some (key, v, after) => pairScan fuel false after (applyPairMatch acc key v)
    | none =>
      match s with
      | [] => acc
      | _ :: rest => pairScan fuel false rest acc

/-- `(?:call\s+you|your\s+name\s+is)\s+([a-z0-9 _-]{2,40})` at one position. -/
def tryAssistantPhraseAt (s : Str) : Option Str :=
  match (matchWordsCI [str "call", str "you"] s).bind (capCls isNameClassChar 2 40 1) with
  | some r => some r
  | none => (matchWordsCI [str "your", str "name", str "is"] s).bind (capCls isNameClassChar 2 40 1)

/-- `(?:my\s+name\s+is|i\s+am)\s+([a-z0-9 _-]{2,40})` at one position. -/
def tryUserPhraseAt (s : Str) : Option Str :=
  match (matchWordsCI [str "my", str "name", str "is"] s).bind (capCls isNameClassChar 2 40 1) with
  | some r => some r
  | none => (matchWordsCI [str "i", str "am"] s).bind (capCls isNameClassChar 2 40 1)

/-- `(?:language\s*(?:is)?|i\s*speak)\s+([a-z0-9 _-]{2,40})` at one position. -/
def tryLangPhraseAt (s : Str) : Option Str :=
  match (matchLitCI (str "language") s).bind
      (wsOptThen [str "is"] (capCls isNameClassChar 2 40 1)) with
  | some r => some r
  | none =>
    (matchLitCI (str "i") s).bind (fun t =>
      (matchLitCI (str "speak") (wsStar t)).bind (capCls isNameClassChar 2 40 1))

/-- `(?:tu\s+t'?appelles|appelle[-\s]?toi|ton\s+nom\s+est)\s+([a-z0-9 _-]{2,40})`. -/
def tryAssistantFrAt (s : Str) : Option Str :=
  match (matchLitCI (str "tu") s).bind wsPlus
      |>.bind (matchAposCI (str "t") (str "appelles"))
      |>.bind (capCls isNameClassChar 2 40 1) with
  | some r => some r
  | none =>
    match (matchLitCI (str "appelle") s).bind (fun t =>
        match t with
        | c :: t' =>
          if c = '-' || isWsChar c then matchLitCI (str "toi") t'
          else matchLitCI (str "toi") t
        | [] => none)
      |>.bind (capCls isNameClassChar 2 40 1) with
    | some r => some r
    | none =>
      (matchWordsCI [str "ton", str "nom", str "est"] s).bind (capCls isNameClassChar 2 40 1)

/-- `(?:mon\s+nom\s+c'?est|je\s+m'?appelle)\s+([a-z0-9 _-]{2,40})`. -/
def tryUserFrAt (s : Str) : Option Str :=
  match (matchWordsCI [str "mon", str "nom"] s).bind wsPlus
      |>.bind (matchAposCI (str "c") (str "est"))
      |>.bind (capCls isNameClassChar 2 40 1) with
  | some r => some r
  | none =>
    (matchLitCI (str "je") s).bind wsPlus
      |>.bind (matchAposCI (str "m") (str "appelle"))
      |>.bind (capCls isNameClassChar 2 40 1)

/-- `(?:langue|je\s+parle)\s*(?:est|:)?\s*([a-z0-9 _-]{2,60})`. -/
def tryLangFrAt (s : Str) : Option Str :=
  match (matchLitCI (str "langue") s).bind
      (wsOptThen [str "est", str ":"] (capCls isNameClassChar 2 60 0)) with
  | some r => some r
  | none =>
    (matchLitCI (str "je") s).bind wsPlus
      |>.bind (matchLitCI (str "parle"))
      |>.bind (wsOptThen [str "est", str ":"] (capCls isNameClassChar 2 60 0))

/-- `looksLikeUser`: `/(?:my\s+name|i\s+am|mon\s+nom|m'?appelle|c'?est)\b/i.test`. -/
def looksLikeUser (value : Str) : Bool :=
  (scanFirst (fun s =>
    let afterBd : Option Str → Option Unit := fun r =>
      r.bind (fun t => if boundaryAfter t then some () else none)
    match afterBd (matchWordsCI [str "my", str "name"] s) with
    | some r => some r
    | none =>
      match afterBd (matchWordsCI [str "i", str "am"] s) with
      | some r => some r
      | none =>
        match afterBd (matchWordsCI [str "mon", str "nom"] s) with
        | some r => some r
        | none =>
          match afterBd (matchAposCI (str "m") (str "appelle") s) with
          | some r => some r
          | none => afterBd (matchAposCI (str "c") (str "est") s)) value).isSome

/-- `ç` under the `i` flag (`[cç]` in `fran[cç]ais`). -/
def isCedilleC (c : Char) : Bool := c.toLower = 'c' || c = 'ç' || c = 'Ç'

/-- `é` under the `i` flag (`[eé]`). -/
def isAccentE (c : Char) : Bool := c.toLower = 'e' || c = 'é' || c = 'É'

/-- `looksLikeLang`:
`/(?:fran[cç]ais|english|spanish|qu[eé]b[eé]cois|lang(?:uage)?|je\s+parle)/i.test`. -/
def looksLikeLang (value : Str) : Bool :=
  (scanFirst (fun s =>
    let franMatch : Option Unit :=
      (matchLitCI (str "fran") s).bind (fun t =>
        match t with
        | c :: t' => if isCedilleC c then (matchLitCI (str "ais") t').map (fun _ => ()) else none
        | [] => none)
    match franMatch with
    | some r => some r
    | none =>
      match (matchLitCI (str "english") s).map (fun _ => ()) with
      | some r => some r
      | none =>
        match (matchLitCI (str "spanish") s).map (fun _ => ()) with
        | some r => some r
        | none =>
          let quebec : Option Unit :=
            (matchLitCI (str "qu") s).bind (fun t =>
              match t with
              | e1 :: t1 =>
                if isAccentE e1 then
                  (matchLitCI (str "b") t1).bind (fun t2 =>
                    match t2 with
                    | e2 :: t3 =>
                      if isAccentE e2 then (matchLitCI (str "cois") t3).map (fun _ => ())
                      else none
                    | [] => none)
                else none
              | [] => none)
          match quebec with
          | some r => some r
          | none =>
            match (matchLitCI (str "lang") s).map (fun _ => ()) with
            | some r => some r
            | none =>
              ((matchLitCI (str "je") s).bind wsPlus
                |>.bind (matchLitCI (str "parle"))).map (fun _ => ())) value).isSome

/-- Anchored lead-in strip for a user chunk:
`replace(/^(?:my\s+name\s+is|i\s+am|mon\s+nom\s+c'?est|je\s+m'?appelle)\s+/i, "")`. -/
def stripUserLeadIn (chunk : Str) : Str :=
  match (match matchWordsCI [str "my", str "name", str "is"] chunk with
         | some t => some t
         | none =>
           match matchWordsCI [str "i", str "am"] chunk with
           | some t => some t
           | none =>
             match (matchWordsCI [str "mon", str "nom"] chunk).bind wsPlus
                 |>.bind (matchAposCI (str "c") (str "est")) with
             | some t => some t
             | none =>
               (matchLitCI (str "je") chunk).bind wsPlus
                 |>.bind (matchAposCI (str "m") (str "appelle"))).bind wsPlus with
  | some rest => rest
  | none => chunk

/-- Anchored lead-in strip for a language chunk:
`replace(/^(?:language\s*(?:is)?|lang(?:ue)?\s*(?:est)?|je\s+parle)\s+/i, "")`. -/
def stripLangLeadIn (chunk : Str) : Str :=
  match (match (matchLitCI (str "language") chunk).bind (wsOptThen [str "is"] wsPlus) with
         | some t => some t
         | none =>
           match (matchLitCI (str "lang") chunk).bind (fun t =>
               let t1 := match matchLitCI (str "ue") t with
                 | some t' => t'
                 | none => t
               wsOptThen [str "est"] wsPlus t1) with
           | some t => some t
           | none =>
             (matchLitCI (str "je") chunk).bind wsPlus
               |>.bind (matchLitCI (str "parle"))
               |>.bind wsPlus) with
  | some rest => rest
  | none => chunk

/-- Chunk splitting `text.split(/[,\n]+/)` composed with the subsequent
`.map(trim).filter(Boolean)` (splitting on delimiter runs and dropping empty
segments coincide once empties are filtered). -/
def splitOnPred (p : Char → Bool) : Str → List Str
  | [] => [[]]
  | c :: rest =>
    if p c then [] :: splitOnPred p rest
    else
      match splitOnPred p rest with
      | [] => [[c]]
      | h :: t => (c :: h) :: t

/-- The trimmed, nonempty chunks of a message. -/
def personaChunks (text : Str) : List Str :=
  ((splitOnPred (fun c => c = ',' || c = '\n') text).map trimStr).filter
    (fun s => !s.isEmpty)

/-- `parsePersonaInput` from `gateway/server.ts`. -/
def parsePersonaInput (text : Str) : PersonaFields :=
  -- 1. explicit `key: value` pairs
  let p1 := pairScan (text.length + 1) true text {}
  -- 2. English phrase patterns
  let assistantPhrase := (scanFirst tryAssistantPhraseAt text).map trimStr
  let p2 :=
    if optFalsy p1.assistantName && !optFalsy assistantPhrase then
      { p1 with assistantName := assistantPhrase }
    else p1
  let userPhrase := (scanFirst tryUserPhraseAt text).map trimStr
  let p3 :=
    if optFalsy p2.userName && !optFalsy userPhrase then { p2 with userName := userPhrase }
    else p2
  let langPhrase := (scanFirst tryLangPhraseAt text).map trimStr
  let p4 :=
    if optFalsy p3.language && !optFalsy langPhrase then { p3 with language := langPhrase }
    else p3
  -- 3. French phrase patterns
  let assistantFr := (scanFirst tryAssistantFrAt text).map trimStr
  let p5 :=
    if optFalsy p4.assistantName && !optFalsy assistantFr then
      { p4 with assistantName := assistantFr }
    else p4
  let userFr := (scanFirst tryUserFrAt text).map trimStr
  let p6 :=
    if optFalsy p5.userName && !optFalsy userFr then { p5 with userName := userFr } else p5
  let langFr := (scanFirst tryLangFrAt text).map trimStr
  let p7 :=
    if optFalsy p6.language && !optFalsy langFr then { p6 with language := langFr } else p6
  -- 4. free-speech chunk heuristics
  if optFalsy p7.assistantName || optFalsy p7.language || optFalsy p7.userName then
    let chunks := personaChunks text
    if 2 ≤ chunks.length then
      let q1 :=
        if optFalsy p7.userName then
          match chunks.find? looksLikeUser with
          | some rawUser =>
            let v := trimStr (stripUserLeadIn rawUser)
            if v.isEmpty then p7 else { p7 with userName := some v }
          | none => p7
        else p7
      let q2 :=
        if optFalsy q1.language then
          match chunks.find? looksLikeLang with
          | some rawLang => { q1 with language := some (trimStr (stripLangLeadIn rawLang)) }
          | none => q1
        else q1
      let q3 :=
        if optFalsy q2.assistantName then
          match chunks.find? (fun c => !looksLikeUser c && !looksLikeLang c) with
          | some candidate =>
            if candidate.length ≤ 40 then
              { q2 with assistantName := some (trimStr (candidate.filter keepWordClass)) }
            else q2
          | none => q2
        else q2
      if optFalsy q3.userName then
        let remaining := chunks.filter (fun chunk =>
          let normalized := trimStr (chunk.filter keepWordClass)
          if normalized.isEmpty then false
          else if !optFalsy q3.assistantName &&
              lowerStr normalized = lowerStr (q3.assistantName.getD []) then false
          else if looksLikeLang chunk then false
          else true)
        match remaining.getLast? with
        | some fallbackUser =>
          { q3 with userName := some (trimStr (fallbackUser.filter keepWordClass)) }
        | none => q3
      else q3
    else p7
  else p7

/-! ## Workspace documents (`src/core/workspace.ts` and persona helpers) -/

/-- A key-value line regex `/key1\s*key2\s*:\s*([^\n\r]+)/i` (used for
`assistant name:`, `user name:`, `preferred language:` in `MEMORY.md`). -/
def reKeyVal (w1 w2 : Str) (doc : Str) : Option Str :=
  scanFirst (fun s =>
    (matchLitCI w1 s).bind (fun t =>
      (matchLitCI w2 (wsStar t)).bind (fun t2 =>
        match wsStar t2 with
        | ':' :: tail => (capExcl (fun c => c = '\n' || c = '\r') 0 tail).map Prod.fst
        | _ => none))) doc

/-- `/you are\s+([^\n\r.]+)/i` over `SOUL.md` (the `readPersona` variant). -/
def reYouAreFree (doc : Str) : Option Str :=
  scanFirst (fun s =>
    (matchLitCI (str "you are") s).bind (fun t =>
      (capExcl (fun c => c = '\n' || c = '\r' || c = '.') 1 t).map Prod.fst)) doc

/-- `/you are\s+([a-z0-9_-]+)/i` over `SOUL.md` (the `workspace.ts` variant). -/
def reYouAreName (doc : Str) : Option Str :=
  scanFirst (fun s =>
    (matchLitCI (str "you are") s).bind (fun t =>
      capCls (fun c => isAlnum c || c = '_' || c = '-') 1 (t.length + 1) 1 t)) doc

/-- `readPersona` from `gateway/server.ts`: current persona fields out of
`MEMORY.md` and `SOUL.md`, empty strings for missing fields. -/
def readPersona (memoryDoc soulDoc defaultAssistantName : Str) : RequiredPersona :=
  let assistantFromMemory := ((reKeyVal (str "assistant") (str "name") memoryDoc).map trimStr).getD []
  let assistantFromSoul := ((reYouAreFree soulDoc).map trimStr).getD []
  let userName := ((reKeyVal (str "user") (str "name") memoryDoc).map trimStr).getD []
  let language := ((reKeyVal (str "preferred") (str "language") memoryDoc).map trimStr).getD []
  { assistantName := orEmpty assistantFromMemory (orEmpty assistantFromSoul defaultAssistantName),
    userName := userName,
    language := language }

/-- `resolveAssistantNameFromDocs` from `src/core/workspace.ts`. -/
def resolveAssistantNameFromDocs (memoryDoc soulDoc fallback : Str) : Str :=
  let explicit := ((reKeyVal (str "assistant") (str "name") memoryDoc).map trimStr).getD []
  if !explicit.isEmpty then explicit
  else
    let soulName := ((reYouAreName soulDoc).map trimStr).getD []
    if !soulName.isEmpty then soulName else fallback

/-- The span matched by `\s*.*$` (multiline) after `key:` in `upsertLine`,
backtracking the greedy whitespace until the line-end assertion holds. -/
def upsertSpanLen (tail : Str) : Option Nat :=
  let w := (tail.takeWhile isWsChar).length
  descend (fun jj =>
    let kk := ((tail.drop jj).takeWhile (fun c => !(c = '\n' || c = '\r'))).length
    match tail.drop (jj + kk) with
    | [] => some (jj + kk)
    | '\n' :: _ => some (jj + kk)
    | _ => none) 0 w

/-- Scan for `new RegExp("^" + key + ":\\s*.*$", "im")` at line starts and
replace the first match with `key: value`; `none` when the doc has no match. -/
def upsertLineAux (key value : Str) : Bool → Str → Option Str
  | atLineStart, s =>
    match (if atLineStart then
        (matchLitCI (lowerStr key) s).bind (fun t =>
          match t with
          | ':' :: tail =>
            (upsertSpanLen tail).map (fun n =>
              key ++ ':' :: ' ' :: value ++ tail.drop n)
          | _ => none)
      else none) with
    | some r => some r
    | none =>
      match s with
      | [] => none
      | c :: rest =>
        (upsertLineAux key value (c = '\n' || c = '\r') rest).map (fun r => c :: r)

/-- `upsertLine` from `gateway/server.ts`: rewrite the first `key:` line, or
append `- key: value`. -/
def upsertLine (doc key value : Str) : Str :=
  match upsertLineAux key value true doc with
  | some r => r
  | none => trimEndStr doc ++ '\n' :: '-' :: ' ' :: key ++ ':' :: ' ' :: value ++ ['\n']

/-- `soulDoc.replace(/You are [^\n\r.]+\.?/i, "You are X.")` in
`applyPersonaSetup`. -/
def replaceYouAre (name : Str) : Str → Str
  | [] => []
  | c :: rest =>
    match (matchLitCI (str "you are ") (c :: rest)).bind (fun t =>
        let run := t.takeWhile (fun d => !(d = '\n' || d = '\r' || d = '.'))
        if run.isEmpty then none
        else
          let t2 := t.drop run.length
          some (match t2 with
                | '.' :: t3 => t3
                | _ => t2)) with
    | some after => str "You are " ++ name ++ '.' :: after
    | none => c :: replaceYouAre name rest

/-- `applyPersonaSetup`: merge parsed updates over the current persona, write
both documents, and update the configured assistant name if it changed.
Returns the updated documents/config together with the resolved fields. -/
def applyPersonaSetupDocs (memoryDoc soulDoc : Str) (cfgAssistantName : Option Str)
    (updates : PersonaFields) : Str × Str × Option Str × RequiredPersona :=
  let current := readPersona memoryDoc soulDoc (cfgAssistantName.getD (str "GnamiBot"))
  let next : RequiredPersona :=
    { assistantName := orEmpty (trimStr (updates.assistantName.getD [])) current.assistantName,
      userName := orEmpty (trimStr (updates.userName.getD [])) current.userName,
      language := orEmpty (trimStr (updates.language.getD [])) current.language }
  let md1 := upsertLine memoryDoc (str "Assistant name") next.assistantName
  let md2 := if next.userName.isEmpty then md1 else upsertLine md1 (str "User name") next.userName
  let md3 :=
    if next.language.isEmpty then md2 else upsertLine md2 (str "Preferred language") next.language
  let sd := replaceYouAre next.assistantName soulDoc
  let cfg :=
    if cfgAssistantName ≠ some next.assistantName then some next.assistantName
    else cfgAssistantName
  (md3, sd, cfg, next)

/-- `personaPrompt`: the fixed multi-field prompt when any field is missing,
empty otherwise. -/
def personaPrompt (persona : RequiredPersona) : Str :=
  if persona.assistantName.isEmpty || persona.language.isEmpty || persona.userName.isEmpty then
    str "Before we start: what should I call myself, what language do you want, and what is your name?"
  else []

/-- `isIdentityQuestion`:
`/\b(who are you|what are you|your name|who am i talking to)\b/i.test`. -/
def isIdentityQuestion (text : Str) : Bool :=
  (scanFirstAfterBoundary (fun s =>
    let tryPhrase : Str → Option Unit := fun w =>
      (matchLitCI w s).bind (fun t => if boundaryAfter t then some () else none)
    match tryPhrase (str "who are you") with
    | some r => some r
    | none =>
      match tryPhrase (str "what are you") with
      | some r => some r
      | none =>
        match tryPhrase (str "your name") with
        | some r => some r
        | none => tryPhrase (str "who am i talking to")) none text).isSome

/-- The match of `/^#\s*SOUL\s*$/im` starting at a given line start: the text
after the matched heading, if it matches here. -/
def soulHeadingAt (s : Str) : Option Str :=
  match s with
  | '#' :: t =>
    (matchLitCI (str "soul") (wsStar t)).bind (fun t2 =>
      let w := (t2.takeWhile isWsChar).length
      descend (fun jj =>
        match t2.drop jj with
        | [] => some ([] : Str)
        | '\n' :: r => some ('\n' :: r)
        | '\r' :: r => some ('\r' :: r)
        | _ => none) 0 w)
  | _ => none

/-- Remove the first `/^#\s*SOUL\s*$/im` heading match from the doc. -/
def removeSoulHeading : Bool → Str → Str
  | atLineStart, s =>
    match (if atLineStart then soulHeadingAt s else none) with
    | some after => after
    | none =>
      match s with
      | [] => []
      | c :: rest => c :: removeSoulHeading (c = '\n' || c = '\r') rest

/-- The prefix of a text before the first blank-line separator
(`split(/\n\s*\n/)[0]`). -/
def takeUntilBlank : Str → Str
  | [] => []
  | c :: rest =>
    if c = '\n' && (rest.takeWhile isWsChar).any (fun d => d = '\n') then []
    else c :: takeUntilBlank rest

/-- `soulToIdentityReply`: the first paragraph of `SOUL.md` after removing its
heading, or a generic one-line fallback. -/
def soulToIdentityReply (soulDoc assistantName : Str) : Str :=
  let cleaned := trimStr (removeSoulHeading true soulDoc)
  let fallback := str "I am " ++ assistantName ++
    str ", your local-first personal assistant running on this computer."
  if cleaned.isEmpty then fallback
  else
    let firstParagraph := trimStr (takeUntilBlank cleaned)
    if firstParagraph.isEmpty then fallback else firstParagraph

/-- `buildWorkspaceContext` over the four workspace docs. -/
def buildWorkspaceContextDocs (agentsDoc soulDoc memoryDoc toolsDoc : Str) : Str :=
  let core := str "Core identity: You are " ++
    resolveAssistantNameFromDocs memoryDoc soulDoc (str "GnamiBot") ++
    str ", the user's personal assistant."
  let body := List.intercalate (str "\n\n")
    [str "## AGENTS.md\n" ++ agentsDoc, str "## SOUL.md\n" ++ soulDoc,
     str "## MEMORY.md\n" ++ memoryDoc, str "## TOOLS.md\n" ++ toolsDoc]
  core ++ str "\n\n" ++ body

/-! ## The turn state machine (`handleInbound` in `gateway/server.ts`)

One inbound message is driven through the pairing gate, the skill-command
short-circuits, session/message persistence, the persona gate, the identity
short-circuit and the two-pass model/action round trip.  External collaborators
(skill store, memory service, model provider, shell) are oracles in `TurnEnv`;
fallible ones return `Except` carrying the thrown error's message.  The world
state is the persisted store, the four workspace documents, and the configured
assistant name. -/

structure World where
  store : StoreState
  agentsDoc : Str
  soulDoc : Str
  memoryDoc : Str
  toolsDoc : Str
  assistantNameCfg : Option Str

structure InboundMsg where
  channel : Channel
  senderId : Str
  content : Str

/-- Oracles for one turn.  `now` is `Store.now()` for this turn and
`freshPairingCode` the random code drawn if a pairing row is inserted. -/
structure TurnEnv where
  now : Str
  freshPairingCode : Str
  /-- `hasSkill(name)`. -/
  hasSkill : Str → Bool
  /-- `installSkill(name, content)`: the skill id, or the thrown message. -/
  installSk : Str → Str → Except Str Str
  /-- `memory.findSkill(userScopedId, name)`. -/
  findSkill : Str → Str → Option Str
  /-- `memory.addSkillMemory(userScopedId, name, content)`: the backend name,
  or the thrown message. -/
  addSkillMemory : Str → Str → Str → Except Str Str
  /-- `memory.addConversationMemory(userScopedId, user, assistant)`. -/
  addConversationMemory : Str → Str → Str → Except Str Str
  /-- `memory.getContext(userScopedId, content, historyHint)`. -/
  getContext : Str → Str → Str → Str
  /-- `agent.respond({input, history, thinking, memoryContext})`: the model
  text, or the thrown message. -/
  respond : Str → List MessageRecord → Str → Str → Except Str Str
  /-- Side-effect oracles for `executeAgentActions`. -/
  exec : ExecEnv

/-- The observable outcome of one turn: world state, the replies sent over the
channel in order, and the action results executed during the turn. -/
structure TurnAcc where
  world : World
  replies : List Str
  executed : List ActionResult

/-- `${message.channel}:${message.senderId}`. -/
def userScopedIdOf (msg : InboundMsg) : Str :=
  msg.channel.name ++ ':' :: msg.senderId

/-- The pairing-gate reply. -/
def pairingReply (channel : Channel) (code : Str) : Str :=
  str "Pairing required. Approve with: gnamiai pairing approve " ++
    channel.name ++ ' ' :: code

/-- One history line of the prompt hint. -/
def histLine (m : MessageRecord) : Str :=
  (if m.direction = Direction.inbound then str "User: " else str "Assistant: ") ++ m.content

/-- `history.slice(-8)`. -/
def lastEight (l : List MessageRecord) : List MessageRecord :=
  (l.reverse.take 8).reverse

/-- The first-pass model input. -/
def firstPassInput (content workspaceContext : Str) : Str :=
  content ++ str "\n\nWorkspace context:\n" ++ workspaceContext

/-- The per-action section of the action summary. -/
def actionSummaryEntry (index : Nat) (r : ActionResult) : Str :=
  List.intercalate (str "\n")
    [str "Action " ++ str (Nat.repr (index + 1)) ++ str ": " ++ r.action.typeName,
     str "Success: " ++ (if r.ok then str "yes" else str "no"),
     str "Output: " ++ r.output]

/-- The structured textual summary of the executed actions. -/
def buildActionSummary (rs : List ActionResult) : Str :=
  List.intercalate (str "\n\n") (rs.enum.map (fun p => actionSummaryEntry p.1 p.2))

/-- The second-pass model input. -/
def secondPassInput (content actionSummary : Str) : Str :=
  List.intercalate (str "\n")
    [str "Original user request: " ++ content,
     str "Actions were executed. Summarize outcome clearly and keep concise.",
     str "Do not emit new gnami-action blocks in this answer.",
     str "",
     actionSummary]

/-- `[memoryContext, workspaceContext].filter(Boolean).join("\n\n")`. -/
def secondPassMemoryContext (memoryContext workspaceContext : Str) : Str :=
  List.intercalate (str "\n\n")
    (([memoryContext, workspaceContext]).filter (fun s => !s.isEmpty))

/-- Persist the outbound message, best-effort write the exchange to long-term
memory (recording a memory event either way), and reply — the shared tail of
the full round trip. -/
def finishTurn (env : TurnEnv) (w : World) (msg : InboundMsg) (usid : Str)
    (sessionId : Nat) (assistant : Str) (executed : List ActionResult) :
    Except (TurnAcc × Str) TurnAcc :=
  let st1 := (addMessage env.now w.store sessionId Direction.outbound assistant).1
  let st2 :=
    match env.addConversationMemory usid msg.content assistant with
    | .ok backend =>
      addMemoryEvent env.now st1 usid (str "saved") (some (str "backend:" ++ backend))
    | .error e => addMemoryEvent env.now st1 usid (str "failed") (some e)
  .ok ⟨{ w with store := st2 }, [assistant], executed⟩

/-- The full round trip: first model pass, extraction capped at 3 actions,
execution, summary, second pass, reply selection. -/
def roundTrip (env : TurnEnv) (w : World) (msg : InboundMsg) (usid : Str)
    (sessionId : Nat) (history : List MessageRecord) (memoryContext : Str) :
    Except (TurnAcc × Str) TurnAcc :=
  let workspaceContext := buildWorkspaceContextDocs w.agentsDoc w.soulDoc w.memoryDoc w.toolsDoc
  match env.respond (firstPassInput msg.content workspaceContext) history (str "medium")
      memoryContext with
  | .error e => .error (⟨w, [], []⟩, e)
  | .ok firstPass =>
    let actions := (parseAgentActions firstPass).take 3
    let assistant0 := stripAgentActions firstPass
    if actions.isEmpty then finishTurn env w msg usid sessionId assistant0 []
    else
      let actionResults := executeAgentActions env.exec actions
      let actionSummary := buildActionSummary actionResults
      match env.respond (secondPassInput msg.content actionSummary) history (str "medium")
          (secondPassMemoryContext memoryContext workspaceContext) with
      | .error e => .error (⟨w, [], actionResults⟩, e)
      | .ok secondPass =>
        let assistant :=
          orEmpty (stripAgentActions secondPass) (orEmpty assistant0 (str "Action completed."))
        finishTurn env w msg usid sessionId assistant actionResults

/-- The `/skill install ` command short-circuit. -/
def skillInstallCmd (env : TurnEnv) (w : World) (msg : InboundMsg) (usid : Str) :
    Except (TurnAcc × Str) TurnAcc :=
  let lines := splitOnChar '\n' msg.content
  let firstLine := lines.headD []
  let rest := lines.tail
  let skillName := trimStr (removeFirst (str "/skill install ") firstLine)
  let skillContent := trimStr (List.intercalate (str "\n") rest)
  if skillName.isEmpty || skillContent.isEmpty then
    .ok ⟨w, [str "Usage: /skill install <name> followed by SKILL.md content on next lines."], []⟩
  else
    match env.installSk skillName skillContent with
    | .error e => .error (⟨w, [], []⟩, e)
    | .ok skillId =>
      let st1 :=
        match env.addSkillMemory usid skillName skillContent with
        | .ok write =>
          addMemoryEvent env.now w.store usid (str "saved")
            (some (str "skill:" ++ skillName ++ str " backend:" ++ write))
        | .error e =>
          addMemoryEvent env.now w.store usid (str "failed")
            (some (str "skill:" ++ skillName ++ ' ' :: e))
      .ok ⟨{ w with store := st1 }, [str "Skill installed: " ++ skillId], []⟩

/-- The `/skill restore ` command short-circuit. -/
def skillRestoreCmd (env : TurnEnv) (w : World) (msg : InboundMsg) (usid : Str) :
    Except (TurnAcc × Str) TurnAcc :=
  let skillName := trimStr (removeFirst (str "/skill restore ") msg.content)
  if skillName.isEmpty then .ok ⟨w, [str "Usage: /skill restore <name>"], []⟩
  else if env.hasSkill skillName then
    .ok ⟨w, [str "Skill already installed: " ++ skillName], []⟩
  else
    match env.findSkill usid skillName with
    | none =>
      .ok ⟨w, [str "No remembered skill found for \"" ++ skillName ++ str "\"."], []⟩
    | some remembered =>
      match env.installSk skillName remembered with
      | .error e => .error (⟨w, [], []⟩, e)
      | .ok skillId => .ok ⟨w, [str "Skill restored from memory: " ++ skillId], []⟩

/-- The persona gate (state 4 of the turn machine). -/
def personaGate (env : TurnEnv) (w : World) (msg : InboundMsg) (sessionId : Nat)
    (persona : RequiredPersona) (parsedPersona : PersonaFields) :
    Except (TurnAcc × Str) TurnAcc :=
  if optFalsy parsedPersona.assistantName && optFalsy parsedPersona.userName &&
      optFalsy parsedPersona.language then
    let prompt := personaPrompt persona
    let st1 := (addMessage env.now w.store sessionId Direction.outbound prompt).1
    .ok ⟨{ w with store := st1 }, [prompt], []⟩
  else
    let ap := applyPersonaSetupDocs w.memoryDoc w.soulDoc w.assistantNameCfg parsedPersona
    let w' := { w with memoryDoc := ap.1, soulDoc := ap.2.1, assistantNameCfg := ap.2.2.1 }
    let updated := ap.2.2.2
    if updated.userName.isEmpty || updated.language.isEmpty then
      let prompt := personaPrompt updated
      let st1 := (addMessage env.now w'.store sessionId Direction.outbound prompt).1
      .ok ⟨{ w' with store := st1 }, [prompt], []⟩
    else
      let intro := str "Setup complete. I am " ++ updated.assistantName ++
        str ". I will speak " ++ updated.language ++ str ". Nice to meet you, " ++
        updated.userName ++ str "."
      let st1 := (addMessage env.now w'.store sessionId Direction.outbound intro).1
      .ok ⟨{ w' with store := st1 }, [intro], []⟩

/-- The identity-question short-circuit (state 5). -/
def identityStep (env : TurnEnv) (w : World) (msg : InboundMsg) (usid : Str)
    (sessionId : Nat) : Except (TurnAcc × Str) TurnAcc :=
  let assistantName :=
    resolveAssistantNameFromDocs w.memoryDoc w.soulDoc (w.assistantNameCfg.getD (str "GnamiBot"))
  let identityReply := soulToIdentityReply w.soulDoc assistantName
  let st1 := (addMessage env.now w.store sessionId Direction.outbound identityReply).1
  let st2 :=
    match env.addConversationMemory usid msg.content identityReply with
    | .ok backend =>
      addMemoryEvent env.now st1 usid (str "saved")
        (some (str "identity-reply backend:" ++ backend))
    | .error e =>
      addMemoryEvent env.now st1 usid (str "failed") (some (str "identity-reply " ++ e))
  .ok ⟨{ w with store := st2 }, [identityReply], []⟩

/-- States 4-6: everything after the session and inbound message have been
persisted. -/
def afterSessionStep (env : TurnEnv) (w : World) (msg : InboundMsg) (usid : Str)
    (sessionId : Nat) : Except (TurnAcc × Str) TurnAcc :=
  let history := getRecentMessages w.store sessionId 30
  let historyHint := List.intercalate (str "\n") ((lastEight history).map histLine)
  let memoryContext := env.getContext usid msg.content historyHint
  let persona := readPersona w.memoryDoc w.soulDoc (w.assistantNameCfg.getD (str "GnamiBot"))
  let parsedPersona := parsePersonaInput msg.content
  if persona.userName.isEmpty || persona.language.isEmpty then
    personaGate env w msg sessionId persona parsedPersona
  else if isIdentityQuestion msg.content then identityStep env w msg usid sessionId
  else roundTrip env w msg usid sessionId history memoryContext

/-- `handleInbound` without its top-level `catch`: an `error` result carries
the state already persisted and the replies already sent when the throw
happened. -/
def handleInboundAux (env : TurnEnv) (w : World) (msg : InboundMsg) :
    Except (TurnAcc × Str) TurnAcc :=
  let up := upsertPairing env.freshPairingCode env.now w.store msg.channel msg.senderId
  let w1 := { w with store := up.1 }
  if !up.2.1 then .ok ⟨w1, [pairingReply msg.channel up.2.2], []⟩
  else
    let usid := userScopedIdOf msg
    if (str "/skill install ").isPrefixOf msg.content then skillInstallCmd env w1 msg usid
    else if (str "/skill restore ").isPrefixOf msg.content then skillRestoreCmd env w1 msg usid
    else
      let gs := getOrCreateSession env.now w1.store msg.channel msg.senderId
      let st1 := (addMessage env.now gs.1 gs.2 Direction.inbound msg.content).1
      afterSessionStep env { w1 with store := st1 } msg usid gs.2

/-- `handleInbound`: the turn handler with its top-level `catch` turning any
thrown error into a single `GnamiAI error: …` reply. -/
def handleInbound (env : TurnEnv) (w : World) (msg : InboundMsg) : TurnAcc :=
  match handleInboundAux env w msg with
  | .ok acc => acc
  | .error (acc, e) =>
    { acc with replies := acc.replies ++ [str "GnamiAI error: " ++ e] }

/-! ## Observation helpers and concrete inputs used by the theorems -/

/-- The world state carried by a turn outcome, caught or not. -/
def turnWorld : Except (TurnAcc × Str) TurnAcc → World
  | .ok a => a.world
  | .error (a, _) => a.world

/-- The executed action results carried by a turn outcome, caught or not. -/
def turnExec : Except (TurnAcc × Str) TurnAcc → List ActionResult
  | .ok a => a.executed
  | .error (a, _) => a.executed

/-- The backtick character. -/
def backtick : Char := Char.ofNat 96

/-- Build a text as alternating gap segments and complete fenced action
blocks, ending in a final gap. -/
def buildSegs : List (Str × Str) → Str → Str
  | [], last => last
  | (g, b) :: rest, last => g ++ actionMarker ++ b ++ fenceStr ++ buildSegs rest last

/-- The gaps of such a text, concatenated — what stripping leaves. -/
def gapsConcat : List (Str × Str) → Str → Str
  | [], last => last
  | (g, _) :: rest, last => g ++ gapsConcat rest last

/-- A text on which stripping splices a new action block together out of
surrounding backticks. -/
def cexStripInput : Str := str "`````gnami-action A````gnami-action B```"

/-- An execution environment whose shell oracle throws. -/
def cexExecEnv : ExecEnv :=
  { execShell := fun _ _ => .error (str "boom")
    installSk := fun n _ => .ok n
    integrations := none }

/-- A first-pass model output carrying one well-formed shell action and the
visible text `Doing it`. -/
def cexFirstPass : Str :=
  str "Doing it\n```gnami-action\n\x7b\"type\":\"shell\",\"command\":\"ls\"\x7d\n```"

/-- A second-pass model output that is nothing but action markup. -/
def cexSecondPass : Str := str "```gnami-action\nx\n```"

/-- A turn environment with deterministic oracles; the model returns
`cexFirstPass` on the first pass and `cexSecondPass` on the second. -/
def cexTurnEnv : TurnEnv :=
  { now := str "T1"
    freshPairingCode := str "123456"
    hasSkill := fun _ => false
    installSk := fun n _ => .ok n
    findSkill := fun _ _ => none
    addSkillMemory := fun _ _ _ => .ok (str "basic")
    addConversationMemory := fun _ _ _ => .ok (str "basic")
    getContext := fun _ _ _ => []
    respond := fun input _ _ _ =>
      if (str "Original user request:").isPrefixOf input then .ok cexSecondPass
      else .ok cexFirstPass
    exec :=
      { execShell := fun _ _ => .ok (str "files")
        installSk := fun n _ => .ok n
        integrations := none } }

/-- A world with one approved sender, a stale session, and persona-complete
documents. -/
def cexWorld : World :=
  { store :=
      { pairings := [⟨.webchat, str "u", true, str "999999", str "T0"⟩]
        sessions := [⟨1, .webchat, str "u", str "T0", str "OLD"⟩]
        messages := []
        memoryEvents := []
        nextSessionId := 2
        nextMessageId := 1 }
    agentsDoc := str "# AGENTS"
    soulDoc := str "# SOUL\n\nYou are TestBot.\nSolid."
    memoryDoc := str "User name: Gab\nPreferred language: en"
    toolsDoc := str "# TOOLS"
    assistantNameCfg := some (str "TestBot") }

/-- A plain round-trip message from the approved sender. -/
def cexMsgRun : InboundMsg := ⟨.webchat, str "u", str "run the thing"⟩

/-- A skill-install command from the approved sender. -/
def cexMsgSkill : InboundMsg := ⟨.webchat, str "u", str "/skill install foo\nbody"⟩

/-- An identity question from the approved sender. -/
def cexMsgWho : InboundMsg := ⟨.webchat, str "u", str "who are you?"⟩

/-- A message from an unknown (hence unapproved) sender. -/
def cexMsgNew : InboundMsg := ⟨.webchat, str "v", str "hello"⟩

/-- A pairing store with two senders on one channel sharing a code. -/
def collisionStore : StoreState :=
  { pairings :=
      [⟨.webchat, str "alice", false, str "111111", str "T0"⟩,
       ⟨.webchat, str "bob", false, str "111111", str "T0"⟩]
    sessions := []
    messages := []
    memoryEvents := []
    nextSessionId := 1
    nextMessageId := 1 }

/-- A first-pass model output that is nothing but a well-formed action block. -/
def cexFirstPassAllMarkup : Str :=
  str "```gnami-action\n\x7b\"type\":\"shell\",\"command\":\"ls\"\x7d\n```"

/-- Like `cexTurnEnv`, but the first pass too strips to empty. -/
def cexTurnEnv2 : TurnEnv :=
  { cexTurnEnv with
    respond := fun input _ _ _ =>
      if (str "Original user request:").isPrefixOf input then .ok cexSecondPass
      else .ok cexFirstPassAllMarkup }

/-! ## Lemmas about the block scanner -/

theorem splitFirst_sound (pat : Str) :
    ∀ {s pre suf : Str}, splitFirst pat s = some (pre, suf) →
      s = pre ++ suf ∧ pat.isPrefixOf suf = true := by
  intro s
  induction s with
  | nil =>
    intro pre suf h
    simp only [splitFirst] at h
    split at h
    · cases h
      exact ⟨rfl, by assumption⟩
    · cases h
  | cons c rest ih =>
    intro pre suf h
    simp only [splitFirst] at h
    split at h
    · cases h
      exact ⟨rfl, by assumption⟩
    · cases h' : splitFirst pat rest with
      | none => rw [h'] at h; cases h
      | some pr =>
        rw [h'] at h
        obtain ⟨pre', suf'⟩ := pr
        cases h
        obtain ⟨h1, h2⟩ := ih h'
        exact ⟨by rw [h1]; rfl, h2⟩

theorem eq_append_drop_of_isPrefixOf {pat suf : Str} (h : pat.isPrefixOf suf = true) :
    suf = pat ++ suf.drop pat.length := by
  rw [List.isPrefixOf_iff_prefix] at h
  obtain ⟨t, ht⟩ := h
  subst ht
  rw [List.drop_left]

theorem nextBlock_sound {s pre body rest : Str}
    (h : nextBlock s = some (pre, body, rest)) :
    s = pre ++ actionMarker ++ body ++ fenceStr ++ rest := by
  simp only [nextBlock] at h
  cases h1 : splitFirst actionMarker s with
  | none => rw [h1] at h; cases h
  | some pr1 =>
    rw [h1] at h
    obtain ⟨pre1, suf1⟩ := pr1
    obtain ⟨hs1, hp1⟩ := splitFirst_sound actionMarker h1
    cases h2 : splitFirst fenceStr (suf1.drop actionMarker.length) with
    | none => simp only [h2] at h; cases h
    | some pr2 =>
      simp only [h2] at h
      obtain ⟨body2, suf2⟩ := pr2
      obtain ⟨hs2, hp2⟩ := splitFirst_sound fenceStr h2
      cases h
      rw [hs1, eq_append_drop_of_isPrefixOf hp1, hs2, eq_append_drop_of_isPrefixOf hp2]
      simp

theorem nextBlock_rest_lt {s pre body rest : Str}
    (h : nextBlock s = some (pre, body, rest)) : rest.length < s.length := by
  have hs := nextBlock_sound h
  rw [hs]
  simp [actionMarker, fenceStr, str]
  omega

theorem nextBlock_nil : nextBlock ([] : Str) = none := rfl

/-! ### Fuel congruence for the scanning loops -/

theorem parseLoop_congr : ∀ (n m : Nat) (s : Str), s.length ≤ n → s.length ≤ m →
    parseLoop n s = parseLoop m s := by
  intro n
  induction n with
  | zero =>
    intro m s hn _
    have : s = [] := List.eq_nil_of_length_eq_zero (Nat.le_zero.mp hn)
    subst this
    cases m with
    | zero => rfl
    | succ m => simp [parseLoop, nextBlock_nil]
  | succ n ih =>
    intro m s hn hm
    cases m with
    | zero =>
      have : s = [] := List.eq_nil_of_length_eq_zero (Nat.le_zero.mp hm)
      subst this
      simp [parseLoop, nextBlock_nil]
    | succ m =>
      simp only [parseLoop]
      cases h : nextBlock s with
      | none => rfl
      | some t =>
        obtain ⟨pre, body, rest⟩ := t
        have hlt := nextBlock_rest_lt h
        have h1 : rest.length ≤ n := by omega
        have h2 : rest.length ≤ m := by omega
        simp [ih m rest h1 h2]

theorem blocksLoop_congr : ∀ (n m : Nat) (s : Str), s.length ≤ n → s.length ≤ m →
    blocksLoop n s = blocksLoop m s := by
  intro n
  induction n with
  | zero =>
    intro m s hn _
    have : s = [] := List.eq_nil_of_length_eq_zero (Nat.le_zero.mp hn)
    subst this
    cases m with
    | zero => rfl
    | succ m => simp [blocksLoop, nextBlock_nil]
  | succ n ih =>
    intro m s hn hm
    cases m with
    | zero =>
      have : s = [] := List.eq_nil_of_length_eq_zero (Nat.le_zero.mp hm)
      subst this
      simp [blocksLoop, nextBlock_nil]
    | succ m =>
      simp only [blocksLoop]
      cases h : nextBlock s with
      | none => rfl
      | some t =>
        obtain ⟨pre, body, rest⟩ := t
        have hlt := nextBlock_rest_lt h
        simp [ih m rest (by omega) (by omega)]

theorem stripLoop_congr : ∀ (n m : Nat) (s : Str), s.length ≤ n → s.length ≤ m →
    stripLoop n s = stripLoop m s := by
  intro n
  induction n with
  | zero =>
    intro m s hn _
    have : s = [] := List.eq_nil_of_length_eq_zero (Nat.le_zero.mp hn)
    subst this
    cases m with
    | zero => rfl
    | succ m => simp [stripLoop, nextBlock_nil]
  | succ n ih =>
    intro m s hn hm
    cases m with
    | zero =>
      have : s = [] := List.eq_nil_of_length_eq_zero (Nat.le_zero.mp hm)
      subst this
      simp [stripLoop, nextBlock_nil]
    | succ m =>
      simp only [stripLoop]
      cases h : nextBlock s with
      | none => rfl
      | some t =>
        obtain ⟨pre, body, rest⟩ := t
        have hlt := nextBlock_rest_lt h
        simp [ih m rest (by omega) (by omega)]

theorem parseLoop_eq_filterMap : ∀ (n : Nat) (s : Str),
    parseLoop n s = (blocksLoop n s).filterMap blockAction := by
  intro n
  induction n with
  | zero => intro s; rfl
  | succ n ih =>
    intro s
    simp only [parseLoop, blocksLoop]
    cases h : nextBlock s with
    | none => rfl
    | some t =>
      obtain ⟨pre, body, rest⟩ := t
      simp only [List.filterMap_cons]
      cases hb : blockAction body with
      | none => exact ih rest
      | some a => rw [ih rest]

theorem length_filterMap_eq_length_filter (f : α → Option β) :
    ∀ l : List α, (l.filterMap f).length = (l.filter (fun x => (f x).isSome)).length := by
  intro l
  induction l with
  | nil => rfl
  | cons a l ih =>
    simp only [List.filterMap_cons, List.filter_cons]
    cases h : f a with
    | none => simpa [h] using ih
    | some b => simpa [h] using ih

/-! ### The per-turn action cap -/

theorem finishTurn_exec (env : TurnEnv) (w : World) (msg : InboundMsg) (usid : Str)
    (sessionId : Nat) (assistant : Str) (executed : List ActionResult) :
    turnExec (finishTurn env w msg usid sessionId assistant executed) = executed := rfl

theorem exec_take3_le (e : ExecEnv) (l : List AgentAction) :
    (executeAgentActions e (l.take 3)).length ≤ 3 := by
  rw [executeAgentActions, List.length_map, List.length_take]
  exact Nat.min_le_left _ _

theorem roundTrip_exec_le (env : TurnEnv) (w : World) (msg : InboundMsg) (usid : Str)
    (sessionId : Nat) (history : List MessageRecord) (memoryContext : Str) :
    (turnExec (roundTrip env w msg usid sessionId history memoryContext)).length ≤ 3 := by
  simp only [roundTrip]
  split
  · simp [turnExec]
  · split
    · simp [finishTurn_exec]
    · split
      · simpa [turnExec] using exec_take3_le env.exec _
      · simpa [finishTurn_exec] using exec_take3_le env.exec _

theorem personaGate_exec (env : TurnEnv) (w : World) (msg : InboundMsg) (sessionId : Nat)
    (persona : RequiredPersona) (parsedPersona : PersonaFields) :
    turnExec (personaGate env w msg sessionId persona parsedPersona) = [] := by
  simp only [personaGate]
  split
  · rfl
  · split <;> rfl

theorem identityStep_exec (env : TurnEnv) (w : World) (msg : InboundMsg) (usid : Str)
    (sessionId : Nat) : turnExec (identityStep env w msg usid sessionId) = [] := rfl

theorem skillInstallCmd_exec (env : TurnEnv) (w : World) (msg : InboundMsg) (usid : Str) :
    turnExec (skillInstallCmd env w msg usid) = [] := by
  simp only [skillInstallCmd]
  split
  · rfl
  · split <;> rfl

theorem skillRestoreCmd_exec (env : TurnEnv) (w : World) (msg : InboundMsg) (usid : Str) :
    turnExec (skillRestoreCmd env w msg usid) = [] := by
  simp only [skillRestoreCmd]
  split
  · rfl
  · split
    · rfl
    · split
      · rfl
      · split <;> rfl

theorem afterSessionStep_exec_le (env : TurnEnv) (w : World) (msg : InboundMsg)
    (usid : Str) (sessionId : Nat) :
    (turnExec (afterSessionStep env w msg usid sessionId)).length ≤ 3 := by
  simp only [afterSessionStep]
  split
  · simp [personaGate_exec]
  · split
    · simp [identityStep_exec]
    · exact roundTrip_exec_le env _ msg usid sessionId _ _

theorem handleInboundAux_exec_le (env : TurnEnv) (w : World) (msg : InboundMsg) :
    (turnExec (handleInboundAux env w msg)).length ≤ 3 := by
  simp only [handleInboundAux]
  split
  · simp [turnExec]
  · split
    · simp [skillInstallCmd_exec]
    · split
      · simp [skillRestoreCmd_exec]
      · exact afterSessionStep_exec_le env _ msg _ _

theorem handleInbound_exec (env : TurnEnv) (w : World) (msg : InboundMsg) :
    (handleInbound env w msg).executed = turnExec (handleInboundAux env w msg) := by
  cases h : handleInboundAux env w msg with
  | ok a => simp [handleInbound, h, turnExec]
  | error pr => obtain ⟨a, e⟩ := pr; simp [handleInbound, h, turnExec]

/-! ## Claim theorems -/

/-- **C1**: `parseAgentActions` yields exactly one action per well-formed
fenced `gnami-action` block (a block whose trimmed body parses as a JSON
object of a known variant), in source order, silently skipping malformed
blocks — it equals `filterMap blockAction` over the scanned block bodies, so
its length is the number of well-formed blocks; and the turn pipeline executes
at most 3 actions per turn, whatever the model emitted. -/
theorem claim1_extraction_and_cap :
    (∀ s : Str,
      parseAgentActions s = (extractBlocks s).filterMap blockAction ∧
      (parseAgentActions s).length =
        ((extractBlocks s).filter (fun b => (blockAction b).isSome)).length) ∧
    (∀ (env : TurnEnv) (w : World) (msg : InboundMsg),
      (handleInbound env w msg).executed.length ≤ 3) := by
  constructor
  · intro s
    have h := parseLoop_eq_filterMap s.length s
    refine ⟨h, ?_⟩
    rw [parseAgentActions, extractBlocks, h, length_filterMap_eq_length_filter]
  · intro env w msg
    rw [handleInbound_exec]
    exact handleInboundAux_exec_le env w msg

/-- **C2**: `executeAgentActions` returns one result per action, in order; a
thrown error during one action is caught and becomes that action's `ok=false`
result carrying the error message, without stopping later actions — in
particular a failing action followed by a succeeding one yields exactly the
two results in that order. -/
theorem claim2_execute_isolated_results (env : ExecEnv) (as : List AgentAction) :
    (executeAgentActions env as).length = as.length ∧
    (∀ (i : Nat) (a : AgentAction), as[i]? = some a →
      (executeAgentActions env as)[i]? = some (execOne env a)) ∧
    (∀ (i : Nat) (a : AgentAction) (e : Str), as[i]? = some a → execRaw env a = .error e →
      (executeAgentActions env as)[i]? = some ⟨a, false, e⟩) ∧
    (∀ a b e out, execRaw env a = .error e → execRaw env b = .ok out →
      executeAgentActions env [a, b] = [⟨a, false, e⟩, ⟨b, true, out⟩]) := by
  refine ⟨by simp [executeAgentActions], ?_, ?_, ?_⟩
  · intro i a h
    simp [executeAgentActions, List.getElem?_map, h]
  · intro i a e h he
    simp [executeAgentActions, List.getElem?_map, h, execOne, he]
  · intro a b e out ha hb
    simp [executeAgentActions, execOne, ha, hb]

/-- Witness for C2: a shell action whose oracle throws `boom` followed by a
skill installation; the results are 1:1, in order, `ok=false` then `ok=true`. -/
theorem claim2_witness :
    executeAgentActions cexExecEnv
        [.shell (str "sleep 5") none, .install_skill (str "a") (str "b")] =
      [⟨.shell (str "sleep 5") none, false, str "boom"⟩,
       ⟨.install_skill (str "a") (str "b"), true, str "Installed skill: a"⟩] :=
  (claim2_execute_isolated_results cexExecEnv
      [.shell (str "sleep 5") none, .install_skill (str "a") (str "b")]).2.2.2
    (.shell (str "sleep 5") none) (.install_skill (str "a") (str "b"))
    (str "boom") (str "Installed skill: a") rfl rfl

/-! ### Stripping (C3) -/

theorem splitFirst_skip {pat : Str} (hpat : pat.head? = some backtick) :
    ∀ (g rest : Str), g.all (fun c => c ≠ backtick) = true → pat.isPrefixOf rest = true →
      splitFirst pat (g ++ rest) = some (g, rest) := by
  obtain ⟨p, ps, rfl⟩ : ∃ p ps, pat = p :: ps := by
    cases pat with
    | nil => cases hpat
    | cons p ps => exact ⟨p, ps, rfl⟩
  have hp : p = backtick := by
    simpa using hpat
  subst hp
  intro g
  induction g with
  | nil =>
    intro rest _ hpre
    cases rest with
    | nil => simp at hpre
    | cons c cs => simp [splitFirst, hpre]
  | cons c g' ih =>
    intro rest hall hpre
    have hc : c ≠ backtick := by
      have := (List.all_eq_true.mp hall) c (List.mem_cons_self _ _)
      simpa using this
    have hnp : (backtick :: ps).isPrefixOf (c :: (g' ++ rest)) = false := by
      simp [List.isPrefixOf_cons₂, Ne.symm hc]
    have hall' : g'.all (fun d => d ≠ backtick) = true := by
      rw [List.all_eq_true] at hall ⊢
      intro x hx
      exact hall x (List.mem_cons_of_mem _ hx)
    simp only [List.cons_append, splitFirst, List.append_eq, hnp, Bool.false_eq_true,
      if_false, ih rest hall' hpre]

theorem splitFirst_none_noBT {pat : Str} (hpat : pat.head? = some backtick) :
    ∀ s : Str, s.all (fun c => c ≠ backtick) = true → splitFirst pat s = none := by
  obtain ⟨p, ps, rfl⟩ : ∃ p ps, pat = p :: ps := by
    cases pat with
    | nil => cases hpat
    | cons p ps => exact ⟨p, ps, rfl⟩
  have hp : p = backtick := by simpa using hpat
  subst hp
  intro s
  induction s with
  | nil => intro _; simp [splitFirst]
  | cons c cs ih =>
    intro hall
    have hc : c ≠ backtick := by
      have := (List.all_eq_true.mp hall) c (List.mem_cons_self _ _)
      simpa using this
    have hall' : cs.all (fun d => d ≠ backtick) = true := by
      rw [List.all_eq_true] at hall ⊢
      intro x hx
      exact hall x (List.mem_cons_of_mem _ hx)
    have hnp : (backtick :: ps).isPrefixOf (c :: cs) = false := by
      simp [List.isPrefixOf_cons₂, Ne.symm hc]
    simp [splitFirst, hnp, ih hall']

theorem isPrefixOf_append_self (pat t : Str) : pat.isPrefixOf (pat ++ t) = true := by
  rw [List.isPrefixOf_iff_prefix]
  exact List.prefix_append pat t

theorem nextBlock_build (g b rest : Str) (hg : g.all (fun c => c ≠ backtick) = true)
    (hb : b.all (fun c => c ≠ backtick) = true) :
    nextBlock (g ++ actionMarker ++ b ++ fenceStr ++ rest) = some (g, b, rest) := by
  have h1 : splitFirst actionMarker (g ++ (actionMarker ++ (b ++ (fenceStr ++ rest)))) =
      some (g, actionMarker ++ (b ++ (fenceStr ++ rest))) :=
    splitFirst_skip (by decide) g _ hg (isPrefixOf_append_self _ _)
  have h2 : splitFirst fenceStr (b ++ (fenceStr ++ rest)) = some (b, fenceStr ++ rest) :=
    splitFirst_skip (by decide) b _ hb (isPrefixOf_append_self _ _)
  simp only [nextBlock, List.append_assoc, h1, List.drop_left, h2]

theorem nextBlock_none_noBT (s : Str) (h : s.all (fun c => c ≠ backtick) = true) :
    nextBlock s = none := by
  simp [nextBlock, splitFirst_none_noBT (by decide : actionMarker.head? = some backtick) s h]

theorem stripLoop_build : ∀ (segs : List (Str × Str)) (last : Str) (fuel : Nat),
    (∀ gb ∈ segs, gb.1.all (fun c => c ≠ backtick) = true ∧
      gb.2.all (fun c => c ≠ backtick) = true) →
    last.all (fun c => c ≠ backtick) = true →
    (buildSegs segs last).length ≤ fuel →
    stripLoop fuel (buildSegs segs last) = gapsConcat segs last := by
  intro segs
  induction segs with
  | nil =>
    intro last fuel _ hlast _
    cases fuel with
    | zero => rfl
    | succ f => simp [stripLoop, buildSegs, gapsConcat, nextBlock_none_noBT last hlast]
  | cons gb rest ih =>
    obtain ⟨g, b⟩ := gb
    intro last fuel hsegs hlast hfuel
    obtain ⟨hg, hb⟩ := hsegs (g, b) (List.mem_cons_self _ _)
    have hrest : ∀ p ∈ rest, p.1.all (fun c => c ≠ backtick) = true ∧
        p.2.all (fun c => c ≠ backtick) = true :=
      fun p hp => hsegs p (List.mem_cons_of_mem _ hp)
    have hlen : (buildSegs ((g, b) :: rest) last).length =
        g.length + b.length + (buildSegs rest last).length + 18 := by
      simp [buildSegs, actionMarker, fenceStr, str]
      omega
    cases fuel with
    | zero => omega
    | succ f =>
      have hnb := nextBlock_build g b (buildSegs rest last) hg hb
      simp only [buildSegs, stripLoop] at *
      rw [hnb]
      simp only [gapsConcat]
      rw [ih last f hrest hlast (by omega)]

theorem all_gapsConcat (p : Char → Bool) :
    ∀ (segs : List (Str × Str)) (last : Str), (∀ gb ∈ segs, gb.1.all p = true) →
      last.all p = true → (gapsConcat segs last).all p = true := by
  intro segs
  induction segs with
  | nil => intro last _ hlast; exact hlast
  | cons gb rest ih =>
    obtain ⟨g, b⟩ := gb
    intro last hsegs hlast
    simp only [gapsConcat, List.all_append, Bool.and_eq_true]
    exact ⟨hsegs (g, b) (List.mem_cons_self _ _),
      ih last (fun q hq => hsegs q (List.mem_cons_of_mem _ hq)) hlast⟩

theorem all_trimStr (p : Char → Bool) (s : Str) (h : s.all p = true) :
    (trimStr s).all p = true := by
  rw [List.all_eq_true] at h ⊢
  intro x hx
  apply h
  simp only [trimStr, List.mem_reverse] at hx
  have h1 := (List.dropWhile_sublist (l := (s.dropWhile isWsChar).reverse) isWsChar).subset hx
  rw [List.mem_reverse] at h1
  exact (List.dropWhile_sublist (l := s) isWsChar).subset h1

theorem extractBlocks_eq_nil_of_noBT (s : Str) (h : s.all (fun c => c ≠ backtick) = true) :
    extractBlocks s = [] := by
  rw [extractBlocks]
  cases hn : s.length with
  | zero => rfl
  | succ n => simp [blocksLoop, nextBlock_none_noBT s h]

/-- **C3 counterexample**: the claim fails as stated — stripping can splice a
new fenced block together out of surrounding backticks, so re-scanning the
stripped output finds a block.  On
`` `````gnami-action A````gnami-action B``` `` the single replace pass removes
`` ```gnami-action A``` `` and the remaining pieces concatenate to
`` ```gnami-action B``` ``, which the scanner matches. -/
theorem claim3_counterexample :
    extractBlocks (stripAgentActions cexStripInput) ≠ [] := by decide

/-- **C3 amended**: for every input in which backticks occur only as the
fences of complete `gnami-action` blocks — the text alternates backtick-free
gaps with complete blocks whose bodies are backtick-free — stripping removes
every block and re-scanning the stripped output yields zero matches.  (In
general the claim is false: see the counterexample.) -/
theorem claim3_amended (segs : List (Str × Str)) (last : Str)
    (hsegs : ∀ gb ∈ segs, gb.1.all (fun c => c ≠ backtick) = true ∧
      gb.2.all (fun c => c ≠ backtick) = true)
    (hlast : last.all (fun c => c ≠ backtick) = true) :
    extractBlocks (stripAgentActions (buildSegs segs last)) = [] := by
  rw [stripAgentActions,
    stripLoop_build segs last (buildSegs segs last).length hsegs hlast (Nat.le_refl _)]
  exact extractBlocks_eq_nil_of_noBT _
    (all_trimStr _ _ (all_gapsConcat _ segs last (fun gb hgb => (hsegs gb hgb).1) hlast))

/-- Witness for the amended C3: one gap, one well-formed block, one trailing
gap; the stripped text re-scans to zero matches. -/
theorem claim3_witness :
    extractBlocks (stripAgentActions
      (buildSegs [(str "hello ", str "\x7b\"type\":\"shell\",\"command\":\"ls\"\x7d")]
        (str " bye"))) = [] :=
  claim3_amended [(str "hello ", str "\x7b\"type\":\"shell\",\"command\":\"ls\"\x7d")]
    (str " bye") (by decide) (by decide)

/-- **C10**: `approvePairing` matches rows by `(channel, code)` only — the
sender id plays no part: every row on that channel carrying that code is
marked approved (already-approved rows included), all other rows and fields
are untouched, and the call returns `true` iff at least one matching row
exists.  A code collision between two senders on one channel therefore
approves both. -/
theorem claim10_approve_by_channel_code (st : StoreState) (ch : Channel) (code : Str) :
    ((approvePairing st ch code).1.pairings.length = st.pairings.length) ∧
    (∀ (i : Nat) (p : PairingRecord), st.pairings[i]? = some p →
      (approvePairing st ch code).1.pairings[i]? =
        some (if p.channel = ch ∧ p.code = code then { p with approved := true } else p)) ∧
    ((approvePairing st ch code).2 = true ↔
      ∃ p ∈ st.pairings, p.channel = ch ∧ p.code = code) := by
  refine ⟨by simp [approvePairing], ?_, ?_⟩
  · intro i p h
    simp [approvePairing, List.getElem?_map, h]
  · simp [approvePairing, List.any_eq_true]

/-- Witness for C10: two pending senders on `webchat` share code `111111`;
one `approvePairing webchat 111111` call approves both rows and returns
`true`. -/
theorem claim10_witness :
    (approvePairing collisionStore .webchat (str "111111")).1.pairings[0]? =
      some ⟨.webchat, str "alice", true, str "111111", str "T0"⟩ ∧
    (approvePairing collisionStore .webchat (str "111111")).1.pairings[1]? =
      some ⟨.webchat, str "bob", true, str "111111", str "T0"⟩ ∧
    (approvePairing collisionStore .webchat (str "111111")).2 = true := by
  have h := claim10_approve_by_channel_code collisionStore .webchat (str "111111")
  refine ⟨?_, ?_, ?_⟩
  · have h0 := h.2.1 0 ⟨.webchat, str "alice", false, str "111111", str "T0"⟩ rfl
    rw [if_pos ⟨rfl, rfl⟩] at h0
    exact h0
  · have h1 := h.2.1 1 ⟨.webchat, str "bob", false, str "111111", str "T0"⟩ rfl
    rw [if_pos ⟨rfl, rfl⟩] at h1
    exact h1
  · exact h.2.2.mpr ⟨⟨.webchat, str "alice", false, str "111111", str "T0"⟩,
      List.mem_cons_self _ _, rfl, rfl⟩

/-- **C5**: a remote-debug command whose 15000 ms timer fires with no response
is rejected with an error naming the method and removed from the pending map;
a response frame carrying that id arriving after the rejection is ignored —
no outcome is delivered and the remaining pending calls are untouched. -/
theorem claim5_cdp_timeout_then_late_response (st : CdpState) (method : Str)
    (frame : CdpFrame) (hwf : ∀ p ∈ st.pending, p.id ≤ st.nextId)
    (hframe : frame.id = some (cdpCommandStart st method).2) :
    (cdpOnTimeout (cdpCommandStart st method).1 (cdpCommandStart st method).2 method).2 =
      some (.rejected (str "CDP command timed out: " ++ method)) ∧
    (cdpOnTimeout (cdpCommandStart st method).1
        (cdpCommandStart st method).2 method).1.pending = st.pending ∧
    cdpOnMessage
        (cdpOnTimeout (cdpCommandStart st method).1
          (cdpCommandStart st method).2 method).1 frame =
      ((cdpOnTimeout (cdpCommandStart st method).1
          (cdpCommandStart st method).2 method).1, none) ∧
    cdpTimeoutMs = 15000 := by
  have hn : ∀ p ∈ st.pending, p.id ≠ st.nextId + 1 := by
    intro p hp
    have := hwf p hp
    omega
  have hfil : (st.pending ++ [(⟨st.nextId + 1, method⟩ : PendingEntry)]).filter
      (fun p => p.id ≠ st.nextId + 1) = st.pending := by
    rw [List.filter_append, List.filter_eq_self.mpr (fun a ha => by simpa using hn a ha)]
    simp
  have hto : cdpOnTimeout (cdpCommandStart st method).1 (cdpCommandStart st method).2 method
      = (⟨st.nextId + 1, st.pending⟩,
         some (.rejected (str "CDP command timed out: " ++ method))) := by
    simp only [cdpOnTimeout, cdpCommandStart]
    rw [if_pos (by simp [List.any_append])]
    simp only [Prod.mk.injEq]
    refine ⟨?_, trivial⟩
    simp
    intro a ha
    exact hn a ha
  have hid : (cdpCommandStart st method).2 = st.nextId + 1 := rfl
  rw [hid] at hframe
  refine ⟨by rw [hto], by rw [hto], ?_, rfl⟩
  rw [hto]
  simp only [cdpOnMessage, hframe]
  rw [List.find?_eq_none.mpr (fun x hx => by simpa using hn x hx)]
  simp

/-- Witness for C5: a fresh session issues `Page.navigate` as id 1; the
timeout rejects it naming the method, empties the pending map, and the late
frame for id 1 is then ignored. -/
theorem claim5_witness :
    (cdpOnTimeout (cdpCommandStart ⟨0, []⟩ (str "Page.navigate")).1
        (cdpCommandStart ⟨0, []⟩ (str "Page.navigate")).2 (str "Page.navigate")).2 =
      some (.rejected (str "CDP command timed out: Page.navigate")) ∧
    (cdpOnTimeout (cdpCommandStart ⟨0, []⟩ (str "Page.navigate")).1
        (cdpCommandStart ⟨0, []⟩ (str "Page.navigate")).2 (str "Page.navigate")).1.pending
      = [] ∧
    cdpOnMessage (cdpOnTimeout (cdpCommandStart ⟨0, []⟩ (str "Page.navigate")).1
        (cdpCommandStart ⟨0, []⟩ (str "Page.navigate")).2 (str "Page.navigate")).1
        ⟨some 1, none, .null⟩ =
      ((cdpOnTimeout (cdpCommandStart ⟨0, []⟩ (str "Page.navigate")).1
        (cdpCommandStart ⟨0, []⟩ (str "Page.navigate")).2 (str "Page.navigate")).1, none) := by
  have h := claim5_cdp_timeout_then_late_response ⟨0, []⟩ (str "Page.navigate")
    ⟨some 1, none, .null⟩ (by simp) rfl
  exact ⟨h.1, h.2.1, h.2.2.1⟩

/-- **C8**: on `"Mon nom c'est Gabriel, je parle francais"` the persona parser
resolves `userName = "Gabriel"` and `language = "francais"` (which contains
`"francais"`), while `assistantName` stays unset — the resolution does not
require it. -/
theorem claim8_persona_french_phrase :
    parsePersonaInput (str "Mon nom c'est Gabriel, je parle francais") =
      { assistantName := none, userName := some (str "Gabriel"),
        language := some (str "francais") } := by decide

/-! ### The pairing gate (C4) -/

theorem upsertPairing_sessions_messages (fc now : Str) (st : StoreState) (ch : Channel)
    (sid : Str) :
    (upsertPairing fc now st ch sid).1.sessions = st.sessions ∧
    (upsertPairing fc now st ch sid).1.messages = st.messages := by
  simp only [upsertPairing]
  split <;> simp

/-- **C4**: when the sender's pairing is not approved, the turn replies with
exactly the approval instruction carrying the channel name and the pairing
code, and is otherwise terminal: no session is created and no message is
persisted (the store changes only by the lazily inserted pairing row). -/
theorem claim4_unapproved_terminal (env : TurnEnv) (w : World) (msg : InboundMsg)
    (h : (upsertPairing env.freshPairingCode env.now w.store msg.channel
        msg.senderId).2.1 = false) :
    handleInbound env w msg =
      ⟨{ w with store := (upsertPairing env.freshPairingCode env.now w.store
            msg.channel msg.senderId).1 },
       [pairingReply msg.channel
          (upsertPairing env.freshPairingCode env.now w.store msg.channel
            msg.senderId).2.2], []⟩ ∧
    (handleInbound env w msg).world.store.sessions = w.store.sessions ∧
    (handleInbound env w msg).world.store.messages = w.store.messages := by
  have haux : handleInboundAux env w msg = .ok
      ⟨{ w with store := (upsertPairing env.freshPairingCode env.now w.store
            msg.channel msg.senderId).1 },
       [pairingReply msg.channel
          (upsertPairing env.freshPairingCode env.now w.store msg.channel
            msg.senderId).2.2], []⟩ := by
    simp [handleInboundAux, h]
  have hmain : handleInbound env w msg =
      ⟨{ w with store := (upsertPairing env.freshPairingCode env.now w.store
            msg.channel msg.senderId).1 },
       [pairingReply msg.channel
          (upsertPairing env.freshPairingCode env.now w.store msg.channel
            msg.senderId).2.2], []⟩ := by
    simp [handleInbound, haux]
  refine ⟨hmain, ?_, ?_⟩
  · rw [hmain]
    exact (upsertPairing_sessions_messages _ _ _ _ _).1
  · rw [hmain]
    exact (upsertPairing_sessions_messages _ _ _ _ _).2

/-- Witness for C4: a first message from the unknown sender `v` yields only
the approval instruction with the fresh code, and no session row appears. -/
theorem claim4_witness :
    (handleInbound cexTurnEnv cexWorld cexMsgNew).replies =
      [str "Pairing required. Approve with: gnamiai pairing approve webchat 123456"] ∧
    (handleInbound cexTurnEnv cexWorld cexMsgNew).world.store.sessions =
      cexWorld.store.sessions ∧
    (handleInbound cexTurnEnv cexWorld cexMsgNew).world.store.messages =
      cexWorld.store.messages := by
  have h := claim4_unapproved_terminal cexTurnEnv cexWorld cexMsgNew (by decide)
  refine ⟨?_, h.2.1, h.2.2⟩
  rw [h.1]
  decide

/-! ### The round-trip reply fallback (C6) -/

/-- **C6 counterexample**: the claim fails as stated.  Here at least one
action was executed and the second pass strips to empty, yet the reply is the
stripped first-pass text `Doing it`, not `Action completed.` — the code falls
back to the first-pass text before the generic reply. -/
theorem claim6_counterexample :
    (handleInbound cexTurnEnv cexWorld cexMsgRun).executed.length ≠ 0 ∧
    stripAgentActions cexSecondPass = [] ∧
    (handleInbound cexTurnEnv cexWorld cexMsgRun).replies = [str "Doing it"] := by decide

/-- **C6 amended**: in the full round trip, whenever at least one action was
executed and *both* the second pass's output and the first pass's output are
empty after stripping action markup, the user-visible reply is the generic
text `Action completed.` (when only the second pass strips to empty, the
stripped first-pass text is used instead). -/
theorem claim6_amended (env : TurnEnv) (w : World) (msg : InboundMsg) (usid : Str)
    (sessionId : Nat) (history : List MessageRecord) (memoryContext fp sp : Str)
    (hfp : env.respond (firstPassInput msg.content
        (buildWorkspaceContextDocs w.agentsDoc w.soulDoc w.memoryDoc w.toolsDoc))
        history (str "medium") memoryContext = .ok fp)
    (hacts : ((parseAgentActions fp).take 3).isEmpty = false)
    (hsp : env.respond (secondPassInput msg.content
        (buildActionSummary (executeAgentActions env.exec ((parseAgentActions fp).take 3))))
        history (str "medium")
        (secondPassMemoryContext memoryContext
          (buildWorkspaceContextDocs w.agentsDoc w.soulDoc w.memoryDoc w.toolsDoc)) = .ok sp)
    (hssp : stripAgentActions sp = [])
    (hsfp : stripAgentActions fp = []) :
    ∃ acc, roundTrip env w msg usid sessionId history memoryContext = .ok acc ∧
      acc.replies = [str "Action completed."] := by
  simp only [roundTrip, hfp, hacts, Bool.false_eq_true, if_false, hsp, hssp, hsfp]
  simp only [orEmpty, List.isEmpty_nil, if_true]
  exact ⟨_, rfl, rfl⟩

/-- Witness for the amended C6: both passes are pure action markup; the reply
is `Action completed.`. -/
theorem claim6_witness :
    ∃ acc, roundTrip cexTurnEnv2 cexWorld cexMsgRun (str "webchat:u") 1 [] [] = .ok acc ∧
      acc.replies = [str "Action completed."] :=
  claim6_amended cexTurnEnv2 cexWorld cexMsgRun (str "webchat:u") 1 [] []
    cexFirstPassAllMarkup cexSecondPass rfl (by decide) rfl (by decide) (by decide)

/-! ### Session refresh (C9) -/

theorem getOrCreateSession_post (now : Str) (st : StoreState) (ch : Channel) (sid : Str) :
    (∃ s ∈ (getOrCreateSession now st ch sid).1.sessions,
      s.channel = ch ∧ s.senderId = sid) ∧
    (∀ s ∈ (getOrCreateSession now st ch sid).1.sessions,
      s.channel = ch → s.senderId = sid → s.updatedAt = now) := by
  simp only [getOrCreateSession]
  split
  · rename_i hany
    obtain ⟨s0, hs0, hmatch⟩ : ∃ s ∈ st.sessions, s.channel = ch ∧ s.senderId = sid := by
      simpa using hany
    constructor
    · refine ⟨(if s0.channel = ch ∧ s0.senderId = sid then { s0 with updatedAt := now }
        else s0), List.mem_map_of_mem _ hs0, ?_⟩
      rw [if_pos hmatch]
      exact ⟨hmatch.1, hmatch.2⟩
    · intro s hs hch hsid
      rw [List.mem_map] at hs
      obtain ⟨t, ht, rfl⟩ := hs
      by_cases hm : t.channel = ch ∧ t.senderId = sid
      · rw [if_pos hm]
      · rw [if_neg hm] at hch hsid ⊢
        exact absurd ⟨hch, hsid⟩ hm
  · rename_i hany
    have hnone : ∀ x ∈ st.sessions, ¬(x.channel = ch ∧ x.senderId = sid) := by
      intro x hx hcontra
      apply hany
      rw [List.any_eq_true]
      exact ⟨x, hx, by simpa using hcontra⟩
    constructor
    · refine ⟨⟨st.nextSessionId, ch, sid, now, now⟩, ?_, rfl, rfl⟩
      simp
    · intro s hs hch hsid
      rw [List.mem_append] at hs
      cases hs with
      | inl hold => exact absurd ⟨hch, hsid⟩ (hnone s hold)
      | inr hnew =>
        simp only [List.mem_singleton] at hnew
        subst hnew
        rfl

theorem addMessage_sessions (now : Str) (st : StoreState) (sid : Nat) (d : Direction)
    (c : Str) : (addMessage now st sid d c).1.sessions = st.sessions := rfl

theorem finishTurn_sessions (env : TurnEnv) (w : World) (msg : InboundMsg) (usid : Str)
    (sessionId : Nat) (assistant : Str) (executed : List ActionResult) :
    (turnWorld (finishTurn env w msg usid sessionId assistant executed)).store.sessions =
      w.store.sessions := by
  simp only [finishTurn, turnWorld]
  split <;> rfl

theorem roundTrip_sessions (env : TurnEnv) (w : World) (msg : InboundMsg) (usid : Str)
    (sessionId : Nat) (history : List MessageRecord) (memoryContext : Str) :
    (turnWorld (roundTrip env w msg usid sessionId history memoryContext)).store.sessions =
      w.store.sessions := by
  simp only [roundTrip]
  split
  · rfl
  · split
    · exact finishTurn_sessions ..
    · split
      · rfl
      · exact finishTurn_sessions ..

theorem personaGate_sessions (env : TurnEnv) (w : World) (msg : InboundMsg)
    (sessionId : Nat) (persona : RequiredPersona) (parsedPersona : PersonaFields) :
    (turnWorld (personaGate env w msg sessionId persona parsedPersona)).store.sessions =
      w.store.sessions := by
  simp only [personaGate]
  split
  · rfl
  · split <;> rfl

theorem identityStep_sessions (env : TurnEnv) (w : World) (msg : InboundMsg) (usid : Str)
    (sessionId : Nat) :
    (turnWorld (identityStep env w msg usid sessionId)).store.sessions =
      w.store.sessions := by
  simp only [identityStep, turnWorld]
  split <;> rfl

theorem afterSessionStep_sessions (env : TurnEnv) (w : World) (msg : InboundMsg)
    (usid : Str) (sessionId : Nat) :
    (turnWorld (afterSessionStep env w msg usid sessionId)).store.sessions =
      w.store.sessions := by
  simp only [afterSessionStep]
  split
  · exact personaGate_sessions ..
  · split
    · exact identityStep_sessions ..
    · exact roundTrip_sessions ..

theorem handleInbound_world (env : TurnEnv) (w : World) (msg : InboundMsg) :
    (handleInbound env w msg).world = turnWorld (handleInboundAux env w msg) := by
  cases h : handleInboundAux env w msg with
  | ok a => simp [handleInbound, h, turnWorld]
  | error pr => obtain ⟨a, e⟩ := pr; simp [handleInbound, h, turnWorld]

/-- **C9 counterexample**: the claim fails as stated.  A `/skill install`
command from an approved sender is processed by the turn handler, yet the
sender's existing session row keeps its stale `updatedAt` value `OLD` — the
skill-command short-circuits return before the session step. -/
theorem claim9_counterexample :
    (handleInbound cexTurnEnv cexWorld cexMsgSkill).replies = [str "Skill installed: foo"] ∧
    (handleInbound cexTurnEnv cexWorld cexMsgSkill).world.store.sessions =
      [⟨1, .webchat, str "u", str "T0", str "OLD"⟩] ∧
    (str "OLD" : Str) ≠ cexTurnEnv.now := by decide

/-- **C9 amended**: for every inbound message that passes the pairing gate and
is not a `/skill install` or `/skill restore` command, the sender's session
row exists after the turn and has its `updatedAt` refreshed to this turn's
timestamp (messages stopped earlier by the pairing gate or the skill commands
do not touch the session — see the counterexample). -/
theorem claim9_amended (env : TurnEnv) (w : World) (msg : InboundMsg)
    (h1 : (upsertPairing env.freshPairingCode env.now w.store msg.channel
        msg.senderId).2.1 = true)
    (h2 : (str "/skill install ").isPrefixOf msg.content = false)
    (h3 : (str "/skill restore ").isPrefixOf msg.content = false) :
    (∃ s ∈ (handleInbound env w msg).world.store.sessions,
      s.channel = msg.channel ∧ s.senderId = msg.senderId) ∧
    (∀ s ∈ (handleInbound env w msg).world.store.sessions,
      s.channel = msg.channel → s.senderId = msg.senderId → s.updatedAt = env.now) := by
  rw [handleInbound_world]
  simp only [handleInboundAux, h1, h2, h3, Bool.not_true, Bool.false_eq_true, if_false,
    Bool.true_eq_false]
  rw [afterSessionStep_sessions]
  exact getOrCreateSession_post env.now
    (upsertPairing env.freshPairingCode env.now w.store msg.channel msg.senderId).1
    msg.channel msg.senderId

/-- Witness for the amended C9: a plain message from the approved sender `u`
leaves the session row refreshed to the turn timestamp. -/
theorem claim9_witness :
    (∃ s ∈ (handleInbound cexTurnEnv cexWorld cexMsgRun).world.store.sessions,
      s.channel = cexMsgRun.channel ∧ s.senderId = cexMsgRun.senderId) ∧
    (∀ s ∈ (handleInbound cexTurnEnv cexWorld cexMsgRun).world.store.sessions,
      s.channel = cexMsgRun.channel → s.senderId = cexMsgRun.senderId →
        s.updatedAt = cexTurnEnv.now) :=
  claim9_amended cexTurnEnv cexWorld cexMsgRun (by decide) (by decide) (by decide)

/-! ### The identity short-circuit (C7) -/

/-- Under the identity-question conditions the turn reduces to
`identityStep` over the session-refreshed world. -/
theorem handleInboundAux_identity_char (env : TurnEnv) (w : World) (msg : InboundMsg)
    (h1 : (upsertPairing env.freshPairingCode env.now w.store msg.channel
        msg.senderId).2.1 = true)
    (h2 : (str "/skill install ").isPrefixOf msg.content = false)
    (h3 : (str "/skill restore ").isPrefixOf msg.content = false)
    (h4 : (readPersona w.memoryDoc w.soulDoc
        (w.assistantNameCfg.getD (str "GnamiBot"))).userName ≠ [])
    (h5 : (readPersona w.memoryDoc w.soulDoc
        (w.assistantNameCfg.getD (str "GnamiBot"))).language ≠ [])
    (h6 : isIdentityQuestion msg.content = true) :
    handleInboundAux env w msg =
      identityStep env
        { w with store :=
            (addMessage env.now
              (getOrCreateSession env.now
                (upsertPairing env.freshPairingCode env.now w.store msg.channel
                  msg.senderId).1 msg.channel msg.senderId).1
              (getOrCreateSession env.now
                (upsertPairing env.freshPairingCode env.now w.store msg.channel
                  msg.senderId).1 msg.channel msg.senderId).2
              Direction.inbound msg.content).1 }
        msg (userScopedIdOf msg)
        (getOrCreateSession env.now
          (upsertPairing env.freshPairingCode env.now w.store msg.channel
            msg.senderId).1 msg.channel msg.senderId).2 := by
  have h4' : (readPersona w.memoryDoc w.soulDoc
      (w.assistantNameCfg.getD (str "GnamiBot"))).userName.isEmpty = false := by
    simpa [List.isEmpty_iff] using h4
  have h5' : (readPersona w.memoryDoc w.soulDoc
      (w.assistantNameCfg.getD (str "GnamiBot"))).language.isEmpty = false := by
    simpa [List.isEmpty_iff] using h5
  simp only [handleInboundAux, h1, h2, h3, Bool.not_true, Bool.false_eq_true, if_false,
    afterSessionStep, h4', h5', Bool.or_self, h6, if_true]

/-- **C7**: an identity question from an approved, persona-complete sender
whose message is not a skill command short-circuits: the reply is derived from
the self-description document by `soulToIdentityReply`, and the model provider
is never invoked — the complete turn outcome is identical for any two model
provider functions. -/
theorem claim7_identity_shortcircuit (env : TurnEnv) (w : World) (msg : InboundMsg)
    (h1 : (upsertPairing env.freshPairingCode env.now w.store msg.channel
        msg.senderId).2.1 = true)
    (h2 : (str "/skill install ").isPrefixOf msg.content = false)
    (h3 : (str "/skill restore ").isPrefixOf msg.content = false)
    (h4 : (readPersona w.memoryDoc w.soulDoc
        (w.assistantNameCfg.getD (str "GnamiBot"))).userName ≠ [])
    (h5 : (readPersona w.memoryDoc w.soulDoc
        (w.assistantNameCfg.getD (str "GnamiBot"))).language ≠ [])
    (h6 : isIdentityQuestion msg.content = true) :
    (∀ f g : Str → List MessageRecord → Str → Str → Except Str Str,
      handleInbound { env with respond := f } w msg =
        handleInbound { env with respond := g } w msg) ∧
    (handleInbound env w msg).replies =
      [soulToIdentityReply w.soulDoc
        (resolveAssistantNameFromDocs w.memoryDoc w.soulDoc
          (w.assistantNameCfg.getD (str "GnamiBot")))] := by
  constructor
  · intro f g
    have hf := handleInboundAux_identity_char { env with respond := f } w msg h1 h2 h3 h4 h5 h6
    have hg := handleInboundAux_identity_char { env with respond := g } w msg h1 h2 h3 h4 h5 h6
    simp only [handleInbound, hf, hg]
    rfl
  · have h := handleInboundAux_identity_char env w msg h1 h2 h3 h4 h5 h6
    simp only [handleInbound, h, identityStep]

/-- Witness for C7: `who are you?` from the approved, persona-complete sender
replies with the first paragraph of `SOUL.md` (here resolving the assistant
name `TestBot`), with no model involvement. -/
theorem claim7_witness :
    (handleInbound cexTurnEnv cexWorld cexMsgWho).replies =
      [soulToIdentityReply cexWorld.soulDoc (str "TestBot")] := by
  have h := claim7_identity_shortcircuit cexTurnEnv cexWorld cexMsgWho (by decide)
    (by decide) (by decide) (by decide) (by decide) (by decide)
  rw [h.2]
  decide

end Gnami
